import Mathlib

/-!
# AsnGo: the local resolution engine of `main.go`

A shallow embedding of `src/main.go` (functions `ensureASNData`, `loadASN`,
`lookupIP`, `ip2asnAPI`, `asn2ipsAPI`, `fetchURL` and the dispatch part of
`main`) together with the theorems that settle claims C1 to C10.

Layout of the embedding

* Go strings are `String`; the standard-library string and path functions the
  program calls (`strings.ToUpper`, `strings.TrimPrefix`, `filepath.Join`, ...)
  are modelled by structurally recursive functions on `List Char`.
* `net.ParseIP`, `net.ParseCIDR`, `IPNet.Contains`, `IP.String` are modelled
  after the Go standard library (package `net` on top of `net/netip`):
  an `IP` is its byte slice.
* The filesystem is an association list from absolute component paths to
  nodes; every `os.*` call of the program is one function on it.
* Whatever is decided outside the program (DNS answers, HTTP responses, the
  decoding of JSON and zip bytes, externally caused failures of `MkdirAll`,
  `Create`, `Rename`) is a field of `Env`.
* Calls that leave the machine (`http.Get`, `net.LookupIP`) and the opening of
  the downloaded archive are recorded, in order, in `World.log`.
-/

set_option autoImplicit false

namespace AsnGo

/-! ## Strings (package `strings`) -/

/-- Go `strings.HasPrefix`. -/
def HasPrefix (s pre : String) : Bool := pre.data.isPrefixOf s.data

/-- Go `strings.TrimPrefix`: `s` without the leading `pre`, or `s` itself. -/
def TrimPrefix (s pre : String) : String :=
  if HasPrefix s pre then String.mk (s.data.drop pre.data.length) else s

/-- Go `strings.ToUpper`. The letters `a` to `z` are mapped to `A` to `Z`;
runes outside ASCII are left as they are in this model. -/
def ToUpper (s : String) : String := String.mk (s.data.map Char.toUpper)

/-- Whether the list `pat` occurs in `l` as a contiguous block. -/
def containsSub (pat : List Char) : List Char → Bool
  | [] => pat.isEmpty
  | c :: cs => pat.isPrefixOf (c :: cs) || containsSub pat cs

/-- Go `strings.Contains`. -/
def Contains (s substr : String) : Bool := containsSub substr.data s.data

/-- Split a character list at every occurrence of `sep`; the result is never empty. -/
def splitAt1 (sep : Char) : List Char → List (List Char)
  | [] => [[]]
  | c :: cs =>
    match splitAt1 sep cs with
    | [] => [[]]
    | w :: ws => if c = sep then [] :: w :: ws else (c :: w) :: ws

/-- Go `strings.Split(s, sep)` for a separator of one character. -/
def Split (s : String) (sep : Char) : List String :=
  (splitAt1 sep s.data).map String.mk

/-- Go `strings.Trim(s, cutset)`: drop leading and trailing runes that are in `cutset`. -/
def Trim (s : String) (cutset : List Char) : String :=
  String.mk (((s.data.dropWhile (fun c => cutset.contains c)).reverse.dropWhile
    (fun c => cutset.contains c)).reverse)

/-- Go `strings.TrimSpace`, for the ASCII white space characters. -/
def TrimSpace (s : String) : String := Trim s [' ', '\t', '\n', '\r', '\x0b', '\x0c']

/-- Go `strings.Join(elems, "/")`. -/
def joinSlash : List String → String
  | [] => ""
  | [a] => a
  | a :: b :: rest => a ++ "/" ++ joinSlash (b :: rest)

/-- Go `strings.Join(elems, ".")`. -/
def joinDots : List String → String
  | [] => ""
  | [a] => a
  | a :: b :: rest => a ++ "." ++ joinDots (b :: rest)

/-! ## Paths (package `path/filepath`, Unix) -/

/-- One step of the lexical clean-up of `filepath.Clean`: `out` holds the kept
components, last first. -/
def cleanStep (rooted : Bool) (out : List String) (c : String) : List String :=
  if c = "" ∨ c = "." then out
  else if c = ".." then
    match out with
    | [] => if rooted then [] else [".."]
    | d :: ds => if d = ".." then ".." :: d :: ds else ds
  else c :: out

/-- Go `filepath.Clean`. -/
def Clean (path : String) : String :=
  if path = "" then "."
  else
    let rooted := HasPrefix path "/"
    let out := ((Split path '/').foldl (cleanStep rooted) []).reverse
    if rooted then "/" ++ joinSlash out
    else if out = [] then "." else joinSlash out

/-- Go `filepath.Join`: the elements from the first non-empty one on, joined by
slashes and cleaned; the empty string when all are empty. -/
def Join : List String → String
  | [] => ""
  | e :: es => if e ≠ "" then Clean (joinSlash (e :: es)) else Join es

/-- Drop the characters after the last slash (the slash is kept). -/
def uptoLastSlash (cs : List Char) : List Char :=
  (cs.reverse.dropWhile (fun c => c ≠ '/')).reverse

/-- Go `filepath.Dir`. -/
def Dir (path : String) : String := Clean (String.mk (uptoLastSlash path.data))

/-! ## Addresses (packages `net` and `net/netip`) -/

/-- Go `net.IP`: the bytes of the address, 4 or 16 of them (none for `nil`). -/
abbrev IP := List Nat

/-- Go `net.IPMask`. -/
abbrev IPMask := List Nat

/-- Go `net.IPNet`. -/
structure IPNet where
  IP : AsnGo.IP
  Mask : AsnGo.IPMask
  deriving DecidableEq, Repr

/-- Go `netip.Addr`, as far as parsing produces it: the 16-byte form, whether
the address is a plain IPv4 one, and the IPv6 zone. -/
structure Addr where
  as16 : List Nat
  is4 : Bool
  zone : String
  deriving DecidableEq, Repr

/-- Go `Addr.BitLen`. -/
def Addr.BitLen (a : Addr) : Nat := if a.is4 then 32 else 128

/-- The 12 bytes that precede an IPv4 address in its 16-byte form. -/
def v4InV6Prefix : List Nat := [0, 0, 0, 0, 0, 0, 0, 0, 0, 0, 0xff, 0xff]

/-- Value of a decimal digit. -/
def decVal (c : Char) : Option Nat :=
  if '0' ≤ c ∧ c ≤ '9' then some (c.toNat - '0'.toNat) else none

/-- Value of a hexadecimal digit. -/
def hexVal (c : Char) : Option Nat :=
  if '0' ≤ c ∧ c ≤ '9' then some (c.toNat - '0'.toNat)
  else if 'a' ≤ c ∧ c ≤ 'f' then some (c.toNat - 'a'.toNat + 10)
  else if 'A' ≤ c ∧ c ≤ 'F' then some (c.toNat - 'A'.toNat + 10)
  else none

/-- The loop of Go `netip.parseIPv4Fields`: `prev` is the character before the
current one, `val` and `digLen` describe the octet being read, `fields` are the
octets already completed. -/
def parseIPv4Loop : List Char → Option Char → Nat → Nat → List Nat → Option (List Nat)
  | [], _, val, _, fields => if fields.length < 3 then none else some (fields ++ [val])
  | c :: cs, prev, val, digLen, fields =>
    match decVal c with
    | some d =>
      if digLen = 1 ∧ val = 0 then none
      else if val * 10 + d > 255 then none
      else parseIPv4Loop cs (some c) (val * 10 + d) (digLen + 1) fields
    | none =>
      if c = '.' then
        if prev = none ∨ cs = [] ∨ prev = some '.' then none
        else if fields.length = 3 then none
        else parseIPv4Loop cs (some c) 0 0 (fields ++ [val])
      else none

/-- Go `netip.parseIPv4Fields` on a whole string: the four octets. -/
def parseIPv4Fields (s : List Char) : Option (List Nat) := parseIPv4Loop s none 0 0 []

/-- The longest prefix of hexadecimal digits, as a number with its digit count,
and the rest of the input. -/
def spanHex : List Char → Nat → Nat → Nat × Nat × List Char
  | [], acc, n => (acc, n, [])
  | c :: cs, acc, n =>
    match hexVal c with
    | some d => spanHex cs (acc * 16 + d) (n + 1)
    | none => (acc, n, c :: cs)

/-- The main loop of Go `netip.parseIPv6`. `s` is the unread input, `ip` the
bytes written so far (so the index `i` of the source is `ip.length`),
`ellipsis` the position of `::` if one was seen. The result is the state at the
end of the loop. The first argument bounds the number of iterations; each one
writes at least two bytes, so nine are never used up. -/
def parseIPv6Loop : Nat → List Char → List Nat → Option Nat →
    Option (List Char × List Nat × Option Nat)
  | 0, _, _, _ => none
  | fuel + 1, s, ip, ellipsis =>
    if ¬ ip.length < 16 then some (s, ip, ellipsis)
    else
      match spanHex s 0 0 with
      | (acc, off, rest) =>
        if off > 4 then none
        else if off = 0 then none
        else if rest.head? = some '.' then
          if ellipsis = none ∧ ip.length ≠ 12 then none
          else if ip.length + 4 > 16 then none
          else
            match parseIPv4Fields s with
            | none => none
            | some f => some ([], ip ++ f, ellipsis)
        else
          let ip1 := ip ++ [acc / 256, acc % 256]
          match rest with
          | [] => some ([], ip1, ellipsis)
          | c :: s1 =>
            if c ≠ ':' then none
            else
              match s1 with
              | [] => none
              | c1 :: s2 =>
                if c1 = ':' then
                  if ellipsis.isSome then none
                  else if s2 = [] then some ([], ip1, some ip1.length)
                  else parseIPv6Loop fuel s2 ip1 (some ip1.length)
                else parseIPv6Loop fuel (c1 :: s2) ip1 ellipsis

/-- Go `netip.parseIPv6` on the text before the zone: the 16 bytes. -/
def parseIPv6 (s : List Char) : Option (List Nat) :=
  let start : Option (List Char × Option Nat) :=
    match s with
    | ':' :: ':' :: s1 => some (s1, some 0)
    | _ => some (s, none)
  match start with
  | none => none
  | some (s0, ell0) =>
    if ell0.isSome ∧ s0 = [] then some (List.replicate 16 0)
    else
      match parseIPv6Loop 9 s0 [] ell0 with
      | none => none
      | some (rest, ip, ellipsis) =>
        if rest ≠ [] then none
        else if ip.length < 16 then
          match ellipsis with
          | none => none
          | some e => some (ip.take e ++ List.replicate (16 - ip.length) 0 ++ ip.drop e)
        else if ellipsis.isSome then none
        else some ip

/-- Go `netip.ParseAddr`: the first of `.`, `:`, `%` in the text decides how it
is read. -/
def ParseAddr (s : String) : Option Addr :=
  match s.data.find? (fun c => c = '.' ∨ c = ':' ∨ c = '%') with
  | some '.' =>
    match parseIPv4Fields s.data with
    | some f => some { as16 := v4InV6Prefix ++ f, is4 := true, zone := "" }
    | none => none
  | some ':' =>
    let addr := s.data.takeWhile (fun c => c ≠ '%')
    let tail := s.data.dropWhile (fun c => c ≠ '%')
    if tail.length = 1 then none
    else
      match parseIPv6 addr with
      | some b => some { as16 := b, is4 := false, zone := String.mk (tail.drop 1) }
      | none => none
  | _ => none

/-- Go `net.ParseIP`: the 16-byte form of the address, `none` for Go `nil`. -/
def ParseIP (s : String) : Option IP :=
  match ParseAddr s with
  | some a => if a.zone ≠ "" then none else some a.as16
  | none => none

/-- Go `IP.To4`: the 4-byte form of an IPv4 address, `none` for Go `nil`. -/
def To4 (ip : IP) : Option IP :=
  if ip.length = 4 then some ip
  else if ip.length = 16 ∧ ip.take 12 = v4InV6Prefix then some (ip.drop 12)
  else none

/-- Go `net.CIDRMask(ones, bits)`: `bits / 8` bytes whose first `ones` bits are set. -/
def CIDRMask (ones bits : Nat) : IPMask :=
  (List.range (bits / 8)).map fun k =>
    if ones ≥ 8 * (k + 1) then 0xff
    else if ones ≤ 8 * k then 0
    else 256 - 2 ^ (8 * (k + 1) - ones)

/-- Go `IP.Mask`; the empty list stands for the `nil` result. -/
def IPMaskApply (ip : IP) (mask : IPMask) : IP :=
  let mask := if mask.length = 16 ∧ ip.length = 4 ∧ (mask.take 12).all (fun b => b = 0xff)
    then mask.drop 12 else mask
  let ip := if mask.length = 4 ∧ ip.length = 16 ∧ ip.take 12 = v4InV6Prefix
    then ip.drop 12 else ip
  if ip.length ≠ mask.length then []
  else List.zipWith (fun a m => a &&& m) ip mask

/-- Go `net.dtoi`: the decimal number at the start of `s` and the number of
characters read; `none` when there is no digit or the number reaches `0xFFFFFF`. -/
def dtoi : List Char → Nat → Nat → Option (Nat × Nat)
  | [], n, i => if i = 0 then none else some (n, i)
  | c :: cs, n, i =>
    match decVal c with
    | some d => if n * 10 + d ≥ 0xFFFFFF then none else dtoi cs (n * 10 + d) (i + 1)
    | none => if i = 0 then none else some (n, i)

/-- Go `net.ParseCIDR`, the network part of its result; `none` for an error. -/
def ParseCIDR (s : String) : Option IPNet :=
  if ¬ s.data.contains '/' then none
  else
    let addr := s.data.takeWhile (fun c => c ≠ '/')
    let mask := (s.data.dropWhile (fun c => c ≠ '/')).drop 1
    match ParseAddr (String.mk addr) with
    | none => none
    | some ipAddr =>
      if ipAddr.zone ≠ "" then none
      else
        match dtoi mask 0 0 with
        | none => none
        | some (n, i) =>
          if i ≠ mask.length ∨ n > ipAddr.BitLen then none
          else
            let m := CIDRMask n ipAddr.BitLen
            some { IP := IPMaskApply ipAddr.as16 m, Mask := m }

/-- Go `net.networkNumberAndMask`; `none` for the pair of `nil`s. -/
def networkNumberAndMask (n : IPNet) : Option (IP × IPMask) :=
  let ip? : Option IP :=
    match To4 n.IP with
    | some x => some x
    | none => if n.IP.length ≠ 16 then none else some n.IP
  match ip? with
  | none => none
  | some ip =>
    if n.Mask.length = 4 then
      if ip.length ≠ 4 then none else some (ip, n.Mask)
    else if n.Mask.length = 16 then
      if ip.length = 4 then some (ip, n.Mask.drop 12) else some (ip, n.Mask)
    else none

/-- Go `IPNet.Contains`: the address, in its 4-byte form when it has one, has
the length of the network number and agrees with it under the mask. -/
def IPNet.Contains (n : IPNet) (ip : AsnGo.IP) : Bool :=
  let (nn, m) := (networkNumberAndMask n).getD ([], [])
  let ip := (To4 ip).getD ip
  if ip.length ≠ nn.length then false
  else (List.range ip.length).all fun i =>
    (nn.getD i 0 &&& m.getD i 0) = (ip.getD i 0 &&& m.getD i 0)

/-- Lower-case hexadecimal digits of `n`, no leading zeros (`0` for zero);
the first argument bounds the number of digits. -/
def hexDigits : Nat → Nat → List Char
  | 0, _ => []
  | fuel + 1, n =>
    let d := Nat.digitChar (n % 16)
    if n / 16 = 0 then [d] else hexDigits fuel (n / 16) ++ [d]

/-- The eight 16-bit groups of a 16-byte address. -/
def groups16 (ip : IP) : List Nat :=
  (List.range 8).map fun k => ip.getD (2 * k) 0 * 256 + ip.getD (2 * k + 1) 0

/-- Length of the run of zero groups at the start of the list. -/
def zeroRun (g : List Nat) : Nat := (g.takeWhile (fun x => x = 0)).length

/-- The first loop of Go `netip.Addr.string6`: the longest run of at least two
zero groups, as start and end index, the earliest one among equals. -/
def longestZeroRun (g : List Nat) : Option (Nat × Nat) :=
  (List.range 8).foldl (fun best i =>
    let l := zeroRun (g.drop i)
    let bestLen := match best with
      | some (a, b) => b - a
      | none => 0
    if l ≥ 2 ∧ l > bestLen then some (i, i + l) else best) none

/-- The second loop of Go `netip.Addr.string6`, from group `i` on. -/
def string6From (g : List Nat) (zero : Option (Nat × Nat)) : Nat → Nat → List Char
  | 0, _ => []
  | fuel + 1, i =>
    if i ≥ 8 then []
    else
      match zero with
      | some (zs, ze) =>
        if i = zs then
          [':', ':'] ++ (if ze ≥ 8 then []
            else hexDigits 4 (g.getD ze 0) ++ string6From g zero fuel (ze + 1))
        else
          (if i > 0 then [':'] else []) ++ hexDigits 4 (g.getD i 0) ++
            string6From g zero fuel (i + 1)
      | none =>
        (if i > 0 then [':'] else []) ++ hexDigits 4 (g.getD i 0) ++
          string6From g zero fuel (i + 1)

/-- Go `IP.String`. -/
def IPString (ip : IP) : String :=
  if ip.length = 0 then "<nil>"
  else if ip.length ≠ 4 ∧ ip.length ≠ 16 then
    "?" ++ String.mk (ip.flatMap fun b => [Nat.digitChar (b / 16), Nat.digitChar (b % 16)])
  else
    match To4 ip with
    | some p4 => joinDots (p4.map toString)
    | none =>
      let g := groups16 ip
      String.mk (string6From g (longestZeroRun g) 8 0)

/-! ## The filesystem (package `os`) -/

/-- An absolute path, as the list of its components below the root. -/
abbrev Path := List String

/-- What a path names: a directory or a regular file with its bytes. -/
inductive Node where
  | dir
  | file (data : String)
  deriving DecidableEq, Repr

/-- The filesystem: the nodes below the root, by absolute path. There are no
symbolic links. -/
abbrev FS := List (Path × Node)

/-- Go `os.DirEntry`, as far as the program looks at it. -/
structure DirEntry where
  Name : String
  IsDir : Bool
  deriving DecidableEq, Repr

/-- The error of a failed `os.Stat`: `ENOENT`, or `ENOTDIR` when a component
of the path is a regular file. Only the first is `os.IsNotExist`. -/
inductive StatErr where
  | notExist
  | notDir
  deriving DecidableEq, Repr

/-- The absolute path the system resolves the name `p` to when the working
directory is `cwd`. -/
def resolve (cwd : Path) (p : String) : Path :=
  ((Split p '/').foldl (cleanStep true) (if HasPrefix p "/" then [] else cwd.reverse)).reverse

/-- The node at a path; the root is a directory. -/
def node (fs : FS) (p : Path) : Option Node :=
  if p = [] then some Node.dir else fs.lookup p

/-- Whether the node at `p` is a regular file. -/
def isFileAt (fs : FS) (p : Path) : Bool :=
  match node fs p with
  | some (Node.file _) => true
  | _ => false

/-- The paths above `p`, the root first, `p` itself excluded. -/
def ancestors (p : Path) : List Path := (List.range p.length).map fun k => p.take k

/-- The `stat` system call on an absolute path. -/
def statP (fs : FS) (p : Path) : Except StatErr Node :=
  if (ancestors p).any (isFileAt fs) then Except.error StatErr.notDir
  else
    match node fs p with
    | some n => Except.ok n
    | none => Except.error StatErr.notExist

/-- Go `os.MkdirAll` on an absolute path: every missing directory on the way
to `p` is created; an error when `p` or a path above it is a regular file. -/
def mkdirAllP (fs : FS) (p : Path) : Except String FS :=
  if (ancestors p ++ [p]).any (isFileAt fs) then Except.error "mkdir: not a directory"
  else Except.ok (fs ++ ((ancestors p ++ [p]).filter fun q => (node fs q).isNone).map
    fun q => (q, Node.dir))

/-- Make `p` a regular file with the bytes `data`, replacing what it held. -/
def setFile (fs : FS) (p : Path) (data : String) : FS :=
  fs.filter (fun e => e.1 ≠ p) ++ [(p, Node.file data)]

/-- Opening a file with `O_CREATE|O_TRUNC` on an absolute path: the directory
above must exist and `p` must not be a directory; the file is then empty. -/
def createP (fs : FS) (p : Path) : Except String FS :=
  match statP fs p.dropLast with
  | Except.ok Node.dir =>
    match node fs p with
    | some Node.dir => Except.error "open: is a directory"
    | _ => Except.ok (setFile fs p "")
  | Except.ok (Node.file _) => Except.error "open: not a directory"
  | Except.error StatErr.notDir => Except.error "open: not a directory"
  | Except.error StatErr.notExist => Except.error "open: no such file or directory"

/-- Writing `data` at the end of the regular file at `p`. -/
def appendP (fs : FS) (p : Path) (data : String) : FS :=
  match node fs p with
  | some (Node.file old) => setFile fs p (old ++ data)
  | _ => fs

/-- Lexicographic order on character lists, the order in which Go compares
strings. -/
def ltChars : List Char → List Char → Bool
  | _, [] => false
  | [], _ :: _ => true
  | a :: as, b :: bs => if a < b then true else if b < a then false else ltChars as bs

/-- Insert an entry into a list of entries sorted by name. -/
def insertEntry (e : DirEntry) : List DirEntry → List DirEntry
  | [] => [e]
  | x :: xs =>
    if ltChars e.Name.data x.Name.data then e :: x :: xs else x :: insertEntry e xs

/-- Sort directory entries by name. -/
def sortEntries : List DirEntry → List DirEntry
  | [] => []
  | e :: es => insertEntry e (sortEntries es)

/-- The entries directly below `p`, sorted by name as `os.ReadDir` returns them. -/
def children (fs : FS) (p : Path) : List DirEntry :=
  sortEntries (fs.filterMap fun e =>
    match e.1.getLast? with
    | some name =>
      if e.1.dropLast = p then
        some { Name := name, IsDir := decide (e.2 = Node.dir) }
      else none
    | none => none)

/-- Go `os.Remove` on an absolute path: a regular file or an empty directory
is removed; otherwise nothing changes (the program ignores the error). -/
def removeP (fs : FS) (p : Path) : FS :=
  match statP fs p with
  | Except.ok (Node.file _) => fs.filter fun e => e.1 ≠ p
  | Except.ok Node.dir => if children fs p = [] then fs.filter fun e => e.1 ≠ p else fs
  | Except.error _ => fs

/-- Go `os.RemoveAll` on an absolute path: `p` and everything below it. -/
def removeAllP (fs : FS) (p : Path) : FS :=
  fs.filter fun e => ¬ p.isPrefixOf e.1

/-- Go `os.Rename` on absolute paths, within one filesystem. The source must
exist; Go refuses a destination that is an existing directory; the directory
above the destination must exist; a directory is moved neither onto a regular
file nor below itself. The source, with everything below it, then lives at the
destination. -/
def renameP (fs : FS) (src dst : Path) : Except String FS :=
  match statP fs src with
  | Except.error _ => Except.error "rename: no such file or directory"
  | Except.ok srcNode =>
    if src = [] then Except.error "rename: device or resource busy"
    else
      match statP fs dst, statP fs dst.dropLast with
      | Except.ok Node.dir, _ => Except.error "rename: file exists"
      | Except.error StatErr.notDir, _ => Except.error "rename: not a directory"
      | dstStat, Except.ok Node.dir =>
        if srcNode = Node.dir ∧ dstStat.toOption.isSome then
          Except.error "rename: not a directory"
        else if src.isPrefixOf dst ∧ src ≠ dst then Except.error "rename: invalid argument"
        else if src = dst then Except.ok fs
        else Except.ok (fs.filterMap fun e =>
          if src.isPrefixOf e.1 then some (dst ++ e.1.drop src.length, e.2)
          else if e.1 = dst then none
          else some e)
      | _, _ => Except.error "rename: no such file or directory"

/-! ## The world outside the program -/

deriving instance DecidableEq for Except

/-- Go `ASNJSON`: one record of the dataset. `IPv4` and `IPv6` are the fields
`Subnets.IPv4` and `Subnets.IPv6`. -/
structure ASNJSON where
  ASN : Int
  Handle : String
  Description : String
  IPv4 : List String
  IPv6 : List String
  deriving DecidableEq, Repr

/-- Go `ASNInfo`: the result of a query. -/
structure ASNInfo where
  Query : String
  ASN : String
  Description : String
  Prefixes : List String
  IP : String
  deriving DecidableEq, Repr

/-- An HTTP response: the `Content-Length` header, the pieces that successive
reads of the body deliver, and the error that ends the body if it does not end
with `io.EOF`. -/
structure HttpResp where
  contentLength : String
  chunks : List String
  readErr : Option String

/-- One file of a zip archive (`zip.File`): its name, whether it is a
directory, the error of `f.Open()` if it fails, the bytes that `io.Copy`
delivers, and the error of `io.Copy` if it fails after them. -/
structure ZipEntry where
  Name : String
  IsDir : Bool
  openErr : Option String
  data : String
  copyErr : Option String

/-- Everything that is decided outside the program during one run. -/
structure Env where
  /-- Go `os.UserHomeDir`. -/
  home : Except String String
  /-- Go `net.LookupIP`: the answer of the resolver for a host name. -/
  LookupIP : String → Except String (List IP)
  /-- Go `http.Get`: the response for a URL. -/
  httpGet : String → Except String HttpResp
  /-- Go `json.Unmarshal` into an `ASNJSON`: the record the bytes decode to. -/
  Unmarshal : String → Except String ASNJSON
  /-- Go `zip.OpenReader`: the files of the archive with these bytes. -/
  zipFiles : String → Except String (List ZipEntry)
  /-- A failure of `os.MkdirAll` on this name that has a cause outside the
  model (permissions, a full disk). -/
  mkdirAllErr : String → Option String
  /-- Such a failure of opening this name for writing. -/
  createErr : String → Option String
  /-- Such a failure of the `k`-th write to the archive file. -/
  writeErr : Nat → Option String
  /-- Such a failure of `os.Rename` (for instance across devices). -/
  renameErr : String → String → Option String

/-- A call that leaves the program, as recorded in the log. -/
inductive Event where
  | httpGet (url : String)
  | lookupIP (host : String)
  | zipOpen (name : String)
  deriving DecidableEq, Repr

/-- The state the program runs in: working directory, filesystem, and the log
of the calls made so far. -/
structure World where
  cwd : Path
  fs : FS
  log : List Event
  deriving DecidableEq, Repr

/-- Go `os.Stat`. -/
def Stat (w : World) (name : String) : Except StatErr Node := statP w.fs (resolve w.cwd name)

/-- Go `os.MkdirAll`. -/
def MkdirAll (env : Env) (w : World) (name : String) : Except String World :=
  match env.mkdirAllErr name with
  | some e => Except.error e
  | none =>
    match mkdirAllP w.fs (resolve w.cwd name) with
    | Except.error e => Except.error e
    | Except.ok fs => Except.ok { w with fs := fs }

/-- Go `os.Create` and `os.OpenFile(name, O_WRONLY|O_CREATE|O_TRUNC, mode)`. -/
def Create (env : Env) (w : World) (name : String) : Except String World :=
  match env.createErr name with
  | some e => Except.error e
  | none =>
    match createP w.fs (resolve w.cwd name) with
    | Except.error e => Except.error e
    | Except.ok fs => Except.ok { w with fs := fs }

/-- Go `File.Write` on the file opened under `name`. -/
def Write (w : World) (name : String) (data : String) : World :=
  { w with fs := appendP w.fs (resolve w.cwd name) data }

/-- Go `os.ReadFile`. -/
def ReadFile (w : World) (name : String) : Except String String :=
  match Stat w name with
  | Except.ok (Node.file data) => Except.ok data
  | Except.ok Node.dir => Except.error "read: is a directory"
  | Except.error StatErr.notDir => Except.error "open: not a directory"
  | Except.error StatErr.notExist => Except.error "open: no such file or directory"

/-- Go `os.ReadDir`: the entries of a directory, sorted by name. -/
def ReadDir (w : World) (name : String) : Except String (List DirEntry) :=
  match Stat w name with
  | Except.ok Node.dir => Except.ok (children w.fs (resolve w.cwd name))
  | Except.ok (Node.file _) => Except.error "readdir: not a directory"
  | Except.error StatErr.notDir => Except.error "open: not a directory"
  | Except.error StatErr.notExist => Except.error "open: no such file or directory"

/-- Go `os.Remove`, its error dropped. -/
def Remove (w : World) (name : String) : World :=
  { w with fs := removeP w.fs (resolve w.cwd name) }

/-- Go `os.RemoveAll`, its error dropped. -/
def RemoveAll (w : World) (name : String) : World :=
  { w with fs := removeAllP w.fs (resolve w.cwd name) }

/-- Go `os.Rename`. -/
def Rename (env : Env) (w : World) (oldname newname : String) : Except String World :=
  match env.renameErr oldname newname with
  | some e => Except.error e
  | none =>
    match renameP w.fs (resolve w.cwd oldname) (resolve w.cwd newname) with
    | Except.error e => Except.error e
    | Except.ok fs => Except.ok { w with fs := fs }

/-- Append an event to the log. -/
def record (w : World) (e : Event) : World := { w with log := w.log ++ [e] }

/-! ## The program (`src/main.go`)

The package variable `asnDataDir` is the argument `asnDataDir` of the functions
below. Output to the terminal (banner, progress bars, rendering of the result)
is not part of the embedding. A Go `error` result is an `Option String`, `none`
being `nil`. -/

/-- The constant `zipURL` of `ensureASNData`. -/
def zipURL : String := "https://github.com/ipverse/asn-ip/archive/refs/heads/master.zip"

/-- The constant `zipPath` of `ensureASNData`. -/
def zipPath : String := "asn-master.zip"

/-- Lines 115-142 of `ensureASNData`: every non-empty piece read from the body
is written to the archive file; `k` counts the writes. -/
def downloadLoop (env : Env) : List String → Nat → World → Option String × World
  | [], _, w => (none, w)
  | chunk :: rest, k, w =>
    if chunk.data.length > 0 then
      match env.writeErr k with
      | some e => (some e, w)
      | none => downloadLoop env rest (k + 1) (Write w zipPath chunk)
    else downloadLoop env rest k w

/-- Lines 154-184 of `ensureASNData`: the files of the archive are unpacked
below the working directory, in order, until one fails. -/
def extractLoop (env : Env) : List ZipEntry → World → Option String × World
  | [], w => (none, w)
  | f :: rest, w =>
    let path := Join [".", f.Name]
    if f.IsDir then
      match MkdirAll env w path with
      | Except.ok w1 => extractLoop env rest w1
      | Except.error _ => extractLoop env rest w
    else
      match MkdirAll env w (Dir path) with
      | Except.error e => (some e, w)
      | Except.ok w1 =>
        match f.openErr with
        | some e => (some e, w1)
        | none =>
          match Create env w1 path with
          | Except.error e => (some e, w1)
          | Except.ok w2 =>
            match f.copyErr with
            | some e => (some e, Write w2 path f.data)
            | none => extractLoop env rest (Write w2 path f.data)

/-- Lines 189-196 of `ensureASNData`: the name of the first directory of the
listing that starts with `asn-ip`, or `asn-ip-master`. -/
def findMasterDir (files : List DirEntry) : String :=
  match files.find? (fun f => f.IsDir && HasPrefix f.Name "asn-ip") with
  | some f => f.Name
  | none => "asn-ip-master"

/-- Lines 188-217 of `ensureASNData`, the relocation step: the `as` directory
of the unpacked archive is moved to `asnDataDir`, then the archive file and the
unpacked directory are removed. -/
def relocate (env : Env) (asnDataDir : String) (w : World) : Option String × World :=
  let files :=
    match ReadDir w "." with
    | Except.ok fs => fs
    | Except.error _ => []
  let masterDir := findMasterDir files
  let asSrc := Join [masterDir, "as"]
  match Stat w asSrc with
  | Except.ok _ =>
    let w1 :=
      match Stat w asnDataDir with
      | Except.ok _ => RemoveAll w asnDataDir
      | Except.error _ => w
    match Rename env w1 asSrc asnDataDir with
    | Except.error e => (some ("failed to move ASN data: " ++ e), w1)
    | Except.ok w2 => (none, RemoveAll (Remove w2 zipPath) masterDir)
  | Except.error _ => (some "failed to move ASN data", RemoveAll (Remove w zipPath) masterDir)

/-- Go `ensureASNData`. -/
def ensureASNData (env : Env) (asnDataDir : String) (w : World) : Option String × World :=
  match Stat w asnDataDir with
  | Except.error StatErr.notExist =>
    match MkdirAll env w asnDataDir with
    | Except.error e => (some ("failed to create cache directory: " ++ e), w)
    | Except.ok w1 =>
      let w2 := record w1 (Event.httpGet zipURL)
      match env.httpGet zipURL with
      | Except.error e => (some e, w2)
      | Except.ok resp =>
        match Create env w2 zipPath with
        | Except.error e => (some e, w2)
        | Except.ok w3 =>
          match downloadLoop env resp.chunks 0 w3 with
          | (some e, w4) => (some e, w4)
          | (none, w4) =>
            match resp.readErr with
            | some e => (some e, w4)
            | none =>
              let w5 := record w4 (Event.zipOpen zipPath)
              match ReadFile w5 zipPath with
              | Except.error e => (some e, w5)
              | Except.ok bytes =>
                match env.zipFiles bytes with
                | Except.error e => (some e, w5)
                | Except.ok files =>
                  match extractLoop env files w5 with
                  | (some e, w6) => (some e, w6)
                  | (none, w6) => relocate env asnDataDir w6
  | _ => (none, w)

/-- The variable `asnNum` of `loadASN`. -/
def asnNum (asn : String) : String := TrimPrefix (ToUpper asn) "AS"

/-- The variable `jsonFile` of `loadASN`: the path of the record. -/
def jsonFile (asnDataDir asn : String) : String :=
  Join [asnDataDir, asnNum asn, "aggregated.json"]

/-- Go `loadASN`. -/
def loadASN (env : Env) (asnDataDir : String) (w : World) (asn : String) :
    Except String ASNJSON :=
  match ReadFile w (jsonFile asnDataDir asn) with
  | Except.error _ => Except.error ("ASN file not found for " ++ asn)
  | Except.ok data => env.Unmarshal data

/-- Go `fmt.Sprintf("AS%d", n)`. -/
def sprintfAS (n : Int) : String := "AS" ++ toString n

/-- Lines 264-277 of `lookupIP`, the loop over the prefixes of one record:
whether it reaches the `return`. Prefixes that are not CIDR text are passed over. -/
def subnetLoop (ip : IP) : List String → Bool
  | [] => false
  | subnet :: rest =>
    match ParseCIDR subnet with
    | none => subnetLoop ip rest
    | some cidr => if cidr.Contains ip then true else subnetLoop ip rest

/-- Lines 256-279 of `lookupIP`, the loop over the directory entries. -/
def dirLoop (env : Env) (asnDataDir : String) (w : World) (ip : IP) (ipStr : String) :
    List DirEntry → Except String ASNInfo
  | [] => Except.error "IP not found in local DB"
  | d :: rest =>
    if ¬ d.IsDir then dirLoop env asnDataDir w ip ipStr rest
    else
      match loadASN env asnDataDir w d.Name with
      | Except.error _ => dirLoop env asnDataDir w ip ipStr rest
      | Except.ok asnData =>
        if subnetLoop ip (asnData.IPv4 ++ asnData.IPv6) then
          Except.ok {
            Query := ipStr
            IP := ipStr
            ASN := sprintfAS asnData.ASN
            Description := asnData.Description
            Prefixes := [] }
        else dirLoop env asnDataDir w ip ipStr rest

/-- Lines 252-279 of `lookupIP`: the scan of the cache directory for the
address `ip`, whose text is `ipStr`. -/
def scanCache (env : Env) (asnDataDir : String) (w : World) (ip : IP) (ipStr : String) :
    Except String ASNInfo :=
  match ReadDir w asnDataDir with
  | Except.error e => Except.error ("failed to read asn-ip folder: " ++ e)
  | Except.ok asnDirs => dirLoop env asnDataDir w ip ipStr asnDirs

/-- Go `lookupIP`. -/
def lookupIP (env : Env) (asnDataDir : String) (w : World) (ipStr : String) :
    Except String ASNInfo × World :=
  match ParseIP ipStr with
  | some ip => (scanCache env asnDataDir w ip ipStr, w)
  | none =>
    let w1 := record w (Event.lookupIP ipStr)
    match env.LookupIP ipStr with
    | Except.ok (ip :: _) => (scanCache env asnDataDir w1 ip (IPString ip), w1)
    | _ => (Except.error "cannot resolve domain", w1)

/-- Go `fetchURL`. -/
def fetchURL (env : Env) (w : World) (url : String) : Except String String × World :=
  let w1 := record w (Event.httpGet url)
  match env.httpGet url with
  | Except.error e => (Except.error e, w1)
  | Except.ok resp =>
    let text := String.join resp.chunks
    if Contains text "API count exceeded" then (Except.error "API limit reached", w1)
    else if Contains text "error" || Contains text "Unable" then
      (Except.error ("API error: " ++ text), w1)
    else (Except.ok text, w1)

/-- The URL of the remote lookup service for a query. -/
def apiURL (q : String) : String := "https://api.hackertarget.com/aslookup/?q=" ++ q

/-- Lines 308-322 of `ip2asnAPI`: the request for the address text `ip`. -/
def ip2asnFetch (env : Env) (w : World) (query ip : String) : Except String ASNInfo × World :=
  match fetchURL env w (apiURL ip) with
  | (Except.error e, w1) => (Except.error e, w1)
  | (Except.ok data, w1) =>
    let parts := Split (Trim data ['\n']) ','
    if parts.length < 4 then (Except.error "unexpected response", w1)
    else
      (Except.ok {
        Query := query
        IP := ip
        ASN := "AS" ++ Trim (parts.getD 1 "") ['"']
        Description := Trim (parts.getD 3 "") ['"']
        Prefixes := [] }, w1)

/-- Go `ip2asnAPI`. -/
def ip2asnAPI (env : Env) (w : World) (query : String) : Except String ASNInfo × World :=
  match ParseIP query with
  | some _ => ip2asnFetch env w query query
  | none =>
    let w1 := record w (Event.lookupIP query)
    match env.LookupIP query with
    | Except.ok (ip :: _) => ip2asnFetch env w1 query (IPString ip)
    | _ => (Except.error "cannot resolve domain", w1)

/-- Go `asn2ipsAPI`. -/
def asn2ipsAPI (env : Env) (w : World) (asn0 : String) : Except String ASNInfo × World :=
  let asn1 := ToUpper (TrimSpace asn0)
  let asn := if ¬ HasPrefix asn1 "AS" then "AS" ++ asn1 else asn1
  match fetchURL env w (apiURL asn) with
  | (Except.error e, w1) => (Except.error e, w1)
  | (Except.ok data, w1) =>
    let lines := Split (Trim data ['\n']) '\n'
    if lines.length < 1 then (Except.error "unexpected response", w1)
    else
      let asnLine := Split (lines.getD 0 "") ','
      if asnLine.length < 2 then (Except.error "unexpected response", w1)
      else
        (Except.ok {
          Query := asn
          ASN := asn
          Description := Trim (asnLine.getD 1 "") ['"']
          Prefixes := lines.drop 1
          IP := "" }, w1)

/-- The command-line flags of `main`. -/
structure Flags where
  ip2asnFlag : String
  asn2ipsFlag : String
  formatFlag : String
  outFile : String
  useAPI : Bool
  help : Bool
  deriving DecidableEq, Repr

/-- How a run of `main` ends, up to the rendering of the result. -/
inductive Outcome where
  /-- `Cannot get home directory`, exit status 1. -/
  | homeError (err : String)
  /-- The usage text is printed and `main` returns. -/
  | usage
  /-- `Error setting up ASN data:` with the error of `ensureASNData`, exit status 1. -/
  | setupError (err : String)
  /-- `Error:` with the error of the lookup, exit status 1. -/
  | lookupError (err : String)
  /-- The value of `info` and of `showPrefixes` that the renderer receives. -/
  | render (info : Option ASNInfo) (showPrefixes : Bool)
  deriving DecidableEq, Repr

/-- Go `main`, up to the `switch` on the output format. -/
def main (env : Env) (flags : Flags) (w : World) : Outcome × World :=
  match env.home with
  | Except.error e => (Outcome.homeError e, w)
  | Except.ok home =>
    let asnDataDir := Join [home, ".cache", "asn_scanner_db"]
    if flags.help = true ∨ (flags.ip2asnFlag = "" ∧ flags.asn2ipsFlag = "") then
      (Outcome.usage, w)
    else
      match ensureASNData env asnDataDir w with
      | (some e, w1) => (Outcome.setupError e, w1)
      | (none, w1) =>
        if flags.ip2asnFlag ≠ "" then
          match (if flags.useAPI then ip2asnAPI env w1 flags.ip2asnFlag
                 else lookupIP env asnDataDir w1 flags.ip2asnFlag) with
          | (Except.error e, w2) => (Outcome.lookupError e, w2)
          | (Except.ok info, w2) => (Outcome.render (some info) false, w2)
        else if flags.asn2ipsFlag ≠ "" then
          if flags.useAPI then
            match asn2ipsAPI env w1 flags.asn2ipsFlag with
            | (Except.error e, w2) => (Outcome.lookupError e, w2)
            | (Except.ok info, w2) => (Outcome.render (some info) true, w2)
          else
            match loadASN env asnDataDir w1 flags.asn2ipsFlag with
            | Except.error e => (Outcome.lookupError e, w1)
            | Except.ok asnData =>
              (Outcome.render (some {
                Query := flags.asn2ipsFlag
                ASN := sprintfAS asnData.ASN
                Description := asnData.Description
                Prefixes := asnData.IPv4 ++ asnData.IPv6
                IP := "" }) true, w1)
        else (Outcome.render none false, w1)

/-! ## Notions used to state the properties -/

/-- The prefix string is well-formed CIDR text and its block contains `ip`. -/
def covers (ip : IP) (subnet : String) : Bool :=
  match ParseCIDR subnet with
  | some cidr => cidr.Contains ip
  | none => false

/-- The record has a well-formed prefix that contains `ip`, among its IPv4
prefixes or among its IPv6 prefixes. -/
def owns (ip : IP) (r : ASNJSON) : Bool := r.IPv4.any (covers ip) || r.IPv6.any (covers ip)

/-- The records of a directory listing, in the order of the listing: what
`loadASN` returns for the directories for which it succeeds. -/
def records (env : Env) (asnDataDir : String) (w : World) (ents : List DirEntry) :
    List ASNJSON :=
  ents.filterMap fun d =>
    if d.IsDir then (loadASN env asnDataDir w d.Name).toOption else none

/-- The record without the prefix strings that are not CIDR text. -/
def stripMalformed (r : ASNJSON) : ASNJSON :=
  { r with
    IPv4 := r.IPv4.filter fun s => (ParseCIDR s).isSome
    IPv6 := r.IPv6.filter fun s => (ParseCIDR s).isSome }

/-- The string is a number: not empty, all characters decimal digits. -/
def isNumber (n : String) : Prop := n ≠ "" ∧ ∀ c ∈ n.data, c.isDigit = true

/-- The spellings of the ASN with number `n`: bare, or with the prefix `AS`
in any case. -/
def spellings (n : String) : List String := [n, "AS" ++ n, "as" ++ n, "As" ++ n, "aS" ++ n]

/-- What a run answers: asn, description and prefixes of the result handed to
the renderer, `none` when the run ends otherwise. -/
def answer : Outcome → Option (String × String × List String)
  | Outcome.render (some info) _ => some (info.ASN, info.Description, info.Prefixes)
  | _ => none

/-- The number of downloads that a log records. -/
def downloads (log : List Event) : Nat := log.countP fun e => e = Event.httpGet zipURL

/-- What `main` makes of the result of a lookup: the error ends the run, the
information goes to the renderer. -/
def deliver (r : Except String ASNInfo × World) (showPrefixes : Bool) : Outcome × World :=
  match r with
  | (Except.error e, w) => (Outcome.lookupError e, w)
  | (Except.ok info, w) => (Outcome.render (some info) showPrefixes, w)

/-! ## Concrete datasets and environments -/

/-- JSON text of a list of strings. -/
def encodeList (l : List String) : String :=
  "[" ++ String.intercalate "," (l.map fun s => "\"" ++ s ++ "\"") ++ "]"

/-- The `aggregated.json` text of a record. -/
def encode (r : ASNJSON) : String :=
  "\x7b\"asn\":" ++ toString r.ASN ++ ",\"handle\":\"" ++ r.Handle ++
  "\",\"description\":\"" ++ r.Description ++ "\",\"subnets\":\x7b\"ipv4\":" ++
  encodeList r.IPv4 ++ ",\"ipv6\":" ++ encodeList r.IPv6 ++ "\x7d\x7d"

/-- A decoder that knows the texts of the given records and rejects all others. -/
def decodeAmong (known : List ASNJSON) (bytes : String) : Except String ASNJSON :=
  match known.find? (fun r => encode r = bytes) with
  | some r => Except.ok r
  | none => Except.error "invalid character looking for beginning of value"

/-- The record of the round-trip example: one prefix `1.2.3.0/24`. -/
def recNet : ASNJSON :=
  { ASN := 64500, Handle := "EXAMPLE", Description := "Example Net",
    IPv4 := ["1.2.3.0/24"], IPv6 := [] }

/-- A record with a wider block around `1.2.3.0/24`. -/
def recWide : ASNJSON :=
  { ASN := 64496, Handle := "WIDE", Description := "Wide Net",
    IPv4 := ["1.2.0.0/16"], IPv6 := [] }

/-- The record of the scenario of the specification. -/
def recGoogle : ASNJSON :=
  { ASN := 15169, Handle := "GOOGLE", Description := "GOOGLE",
    IPv4 := ["8.8.8.0/24"], IPv6 := [] }

/-- A record whose prefix lists contain strings that are not CIDR text. -/
def recNoisy : ASNJSON :=
  { ASN := 64511, Handle := "NOISY", Description := "Noisy Net",
    IPv4 := ["not-a-cidr", "10.0.0.0/33", "10.0.0.0/8"],
    IPv6 := ["zz::/16", "2001:db8::/32"] }

/-- The record of the concatenation example. -/
def recBoth : ASNJSON :=
  { ASN := 64499, Handle := "BOTH", Description := "Both Families",
    IPv4 := ["10.0.0.0/8"], IPv6 := ["2001:db8::/32"] }

/-- The cache directory of the user `u`. -/
def cacheDir : String := "/home/u/.cache/asn_scanner_db"

/-- The cache directory as a path. -/
def cachePath : Path := ["home", "u", ".cache", "asn_scanner_db"]

/-- A home directory and a working directory, no cache yet. -/
def bareFS : FS := [(["home"], Node.dir), (["home", "u"], Node.dir), (["work"], Node.dir)]

/-- The directories down to the cache directory. -/
def cacheFS : FS :=
  bareFS ++ [(["home", "u", ".cache"], Node.dir), (cachePath, Node.dir)]

/-- The directory of one ASN in the cache, holding `aggregated.json` with `bytes`. -/
def recordDir (name bytes : String) : FS :=
  [(cachePath ++ [name], Node.dir),
   (cachePath ++ [name, "aggregated.json"], Node.file bytes)]

/-- A world with the given filesystem, run from `/work`, nothing logged. -/
def worldOf (fs : FS) : World := { cwd := ["work"], fs := fs, log := [] }

/-- The cache holds the one record `recNet`. -/
def wNet : World := worldOf (cacheFS ++ recordDir "64500" (encode recNet))

/-- The cache holds `recWide` and, listed after it, `recNet`. -/
def wOverlap : World :=
  worldOf (cacheFS ++ recordDir "64500" (encode recNet) ++ recordDir "64496" (encode recWide))

/-- The cache holds the one record `recGoogle`. -/
def wGoogle : World := worldOf (cacheFS ++ recordDir "15169" (encode recGoogle))

/-- The cache holds `recBoth`. -/
def wBoth : World := worldOf (cacheFS ++ recordDir "64499" (encode recBoth))

/-- A cache with noise: a directory whose file is not JSON, a directory
without a file, a plain file, and the record `recNoisy`. -/
def wDirty : World :=
  worldOf (cacheFS ++ recordDir "100" "<html>not json</html>" ++
    [(cachePath ++ ["200"], Node.dir), (cachePath ++ ["LICENSE"], Node.file "MIT")] ++
    recordDir "64511" (encode recNoisy))

/-- The cache of `wDirty` with the noise removed. -/
def wClean : World := worldOf (cacheFS ++ recordDir "64511" (encode (stripMalformed recNoisy)))

/-- The cache directory does not exist. -/
def wBare : World := worldOf bareFS

/-- The files of a small dataset archive. -/
def archiveFiles : List ZipEntry :=
  [ { Name := "asn-ip-master/", IsDir := true, openErr := none, data := "", copyErr := none },
    { Name := "asn-ip-master/README.md", IsDir := false, openErr := none, data := "readme",
      copyErr := none },
    { Name := "asn-ip-master/as/", IsDir := true, openErr := none, data := "", copyErr := none },
    { Name := "asn-ip-master/as/15169/", IsDir := true, openErr := none, data := "",
      copyErr := none },
    { Name := "asn-ip-master/as/15169/aggregated.json", IsDir := false, openErr := none,
      data := encode recGoogle, copyErr := none } ]

/-- An environment in which everything works: the dataset archive downloads
in two pieces, `dns.google` resolves to `8.8.8.8`, no other name resolves, and
the lookup service knows `8.8.8.8` and `AS15169`. -/
def envOK : Env :=
  { home := Except.ok "/home/u"
    LookupIP := fun host =>
      if host = "dns.google" then Except.ok [[8, 8, 8, 8]]
      else Except.error "no such host"
    httpGet := fun url =>
      if url = zipURL then
        Except.ok { contentLength := "5", chunks := ["PK", "ZIP"], readErr := none }
      else if url = apiURL "8.8.8.8" then
        Except.ok { contentLength := "", chunks := ["\"8.8.8.8\",\"15169\",\"8.8.8.0/24\",\"GOOGLE, US\"\n"],
                    readErr := none }
      else if url = apiURL "AS15169" then
        Except.ok { contentLength := "", chunks := ["\"15169\",\"GOOGLE, US\"\n8.8.4.0/24\n8.8.8.0/24\n"],
                    readErr := none }
      else Except.error "no route to host"
    Unmarshal := decodeAmong [recNet, recWide, recGoogle, recNoisy, stripMalformed recNoisy, recBoth]
    zipFiles := fun bytes =>
      if bytes = "PKZIP" then Except.ok archiveFiles
      else Except.error "zip: not a valid zip file"
    mkdirAllErr := fun _ => none
    createErr := fun _ => none
    writeErr := fun _ => none
    renameErr := fun _ _ => none }

/-- As `envOK`, but the dataset archive cannot be downloaded. -/
def envNoDownload : Env :=
  { envOK with
    httpGet := fun url =>
      if url = zipURL then Except.error "dial tcp: connection refused" else envOK.httpGet url }

/-- As `envOK`, but the working directory and the cache directory are on
different devices, so that `os.Rename` between them fails. -/
def envCrossDevice : Env :=
  { envOK with renameErr := fun _ _ => some "invalid cross-device link" }

/-- As `envOK`, but the archive has no `as` directory. -/
def envNoRecords : Env :=
  { envOK with zipFiles := fun _ => Except.ok (archiveFiles.take 2) }

/-- The state after `ensureASNData` failed at the download, started without a
cache: the cache directory has been created and is empty. -/
def wAfterFailedDownload : World :=
  { cwd := ["work"]
    fs := bareFS ++ [(["home", "u", ".cache"], Node.dir), (cachePath, Node.dir)]
    log := [Event.httpGet zipURL] }

/-- The state after `ensureASNData` unpacked an archive without `as`
directory, started without a cache: the cache directory is empty, the archive
file and the unpacked directory are gone. -/
def wAfterNoRecords : World :=
  { cwd := ["work"]
    fs := bareFS ++ [(["home", "u", ".cache"], Node.dir), (cachePath, Node.dir)]
    log := [Event.httpGet zipURL, Event.zipOpen zipPath] }

/-- The state after `ensureASNData` failed at `os.Rename`, started without a
cache: no cache directory, the archive file and the unpacked archive are still
in the working directory. -/
def wAfterFailedRename : World :=
  { cwd := ["work"]
    fs := bareFS ++ [(["home", "u", ".cache"], Node.dir),
      (["work", "asn-master.zip"], Node.file "PKZIP"),
      (["work", "asn-ip-master"], Node.dir),
      (["work", "asn-ip-master", "README.md"], Node.file "readme"),
      (["work", "asn-ip-master", "as"], Node.dir),
      (["work", "asn-ip-master", "as", "15169"], Node.dir),
      (["work", "asn-ip-master", "as", "15169", "aggregated.json"],
        Node.file (encode recGoogle))]
    log := [Event.httpGet zipURL, Event.zipOpen zipPath] }

/-- The state after a successful `ensureASNData`, started without a cache. -/
def wPopulated : World :=
  { cwd := ["work"]
    fs := bareFS ++ [(["home", "u", ".cache"], Node.dir), (cachePath, Node.dir),
      (cachePath ++ ["15169"], Node.dir),
      (cachePath ++ ["15169", "aggregated.json"], Node.file (encode recGoogle))]
    log := [Event.httpGet zipURL, Event.zipOpen zipPath] }

/-- The flags of `--ip2asn 8.8.8.8 --use-api`. -/
def flagsRemote : Flags :=
  { ip2asnFlag := "8.8.8.8", asn2ipsFlag := "", formatFlag := "text", outFile := "",
    useAPI := true, help := false }

/-! ## Lemmas -/

theorem subnetLoop_eq_any (ip : IP) (l : List String) :
    subnetLoop ip l = l.any (covers ip) := by
  induction l with
  | nil => rfl
  | cons s rest ih =>
    simp only [subnetLoop, List.any_cons, covers]
    cases h : ParseCIDR s with
    | none => simpa using ih
    | some cidr =>
      cases hc : cidr.Contains ip with
      | true => simp [hc]
      | false => simpa [hc] using ih

theorem subnetLoop_eq_owns (ip : IP) (r : ASNJSON) :
    subnetLoop ip (r.IPv4 ++ r.IPv6) = owns ip r := by
  rw [subnetLoop_eq_any, List.any_append, owns]

/-- The information reported for a record that owns the address. -/
theorem dirLoop_eq_find (env : Env) (dir : String) (w : World) (ip : IP) (ipStr : String)
    (ents : List DirEntry) :
    dirLoop env dir w ip ipStr ents =
      match (records env dir w ents).find? (owns ip) with
      | some r => Except.ok {
          Query := ipStr, IP := ipStr, ASN := "AS" ++ toString r.ASN,
          Description := r.Description, Prefixes := [] }
      | none => Except.error "IP not found in local DB" := by
  induction ents with
  | nil => rfl
  | cons d rest ih =>
    unfold dirLoop records
    rw [List.filterMap_cons]
    cases hd : d.IsDir with
    | false => simpa [records] using ih
    | true =>
      simp only [not_true_eq_false, if_false, if_true]
      cases hl : loadASN env dir w d.Name with
      | error e => simpa [records, Except.toOption] using ih
      | ok r =>
        simp only [Except.toOption, List.find?_cons, subnetLoop_eq_owns]
        cases ho : owns ip r with
        | true => simp [sprintfAS]
        | false => simpa [records] using ih

theorem find_first {α : Type} (p : α → Bool) (pre : List α) (r : α) (post : List α)
    (hpre : ∀ x ∈ pre, p x = false) (hr : p r = true) :
    (pre ++ r :: post).find? p = some r := by
  induction pre with
  | nil => simp [hr]
  | cons a pre ih =>
    have ha : p a = false := hpre a (List.mem_cons_self _ _)
    simp only [List.cons_append, List.find?_cons, ha]
    exact ih fun x hx => hpre x (List.mem_cons_of_mem _ hx)

theorem loadASN_record (env : Env) (dir : String) (w : World) (e : Event) (asn : String) :
    loadASN env dir (record w e) asn = loadASN env dir w asn := rfl

theorem dirLoop_record (env : Env) (dir : String) (w : World) (e : Event) (ip : IP)
    (ipStr : String) (ents : List DirEntry) :
    dirLoop env dir (record w e) ip ipStr ents = dirLoop env dir w ip ipStr ents := by
  induction ents with
  | nil => rfl
  | cons d rest ih => simp only [dirLoop, loadASN_record, ih]

theorem scanCache_record (env : Env) (dir : String) (w : World) (e : Event) (ip : IP)
    (ipStr : String) :
    scanCache env dir (record w e) ip ipStr = scanCache env dir w ip ipStr := by
  have hrd : ReadDir (record w e) dir = ReadDir w dir := rfl
  simp only [scanCache, hrd, dirLoop_record]

/-- The result of `lookupIP` is the scan for the address that the query stands
for: the literal itself, or the first address the resolver returned. -/
theorem lookupIP_eq_scan (env : Env) (dir : String) (w : World) (q : String) (ip : IP)
    (ipStr : String)
    (hq : (ParseIP q = some ip ∧ ipStr = q) ∨
      (ParseIP q = none ∧ ipStr = IPString ip ∧
        ∃ rest, env.LookupIP q = Except.ok (ip :: rest))) :
    (lookupIP env dir w q).1 = scanCache env dir w ip ipStr := by
  rcases hq with ⟨hp, hs⟩ | ⟨hp, hs, rest, hl⟩
  · simp only [lookupIP, hp, hs]
  · simp only [lookupIP, hp, hl, hs, scanCache_record]

/-- One more unit of the iteration bound changes nothing once the bound covers
the bytes still to be written. -/
theorem parseIPv6Loop_fuel (fuel : Nat) :
    ∀ (s : List Char) (ip : List Nat) (ell : Option Nat),
      18 ≤ ip.length + 2 * (fuel + 1) →
      parseIPv6Loop (fuel + 2) s ip ell = parseIPv6Loop (fuel + 1) s ip ell := by
  induction fuel with
  | zero =>
    intro s ip ell h
    have h16 : ¬ ip.length < 16 := by omega
    rw [parseIPv6Loop, parseIPv6Loop]
    simp only [h16, not_false_eq_true, if_true]
  | succ k ih =>
    intro s ip ell h
    have hrec : ∀ s2 e2,
        parseIPv6Loop (k + 2) s2
            (ip ++ [(spanHex s 0 0).1 / 256, (spanHex s 0 0).1 % 256]) e2 =
          parseIPv6Loop (k + 1) s2
            (ip ++ [(spanHex s 0 0).1 / 256, (spanHex s 0 0).1 % 256]) e2 := by
      intro s2 e2
      apply ih
      simp only [List.length_append, List.length_cons, List.length_nil]
      omega
    rw [parseIPv6Loop]
    conv_rhs => rw [parseIPv6Loop]
    simp only [hrec]

/-- The bound of nine iterations that `parseIPv6` passes is enough: a larger
bound gives the same result on every input. -/
theorem parseIPv6Loop_nine (k : Nat) (s : List Char) (ell : Option Nat) :
    parseIPv6Loop (9 + k) s [] ell = parseIPv6Loop 9 s [] ell := by
  induction k with
  | zero => rfl
  | succ k ih =>
    have hb : 18 ≤ ([] : List Nat).length + 2 * (8 + k + 1) := by
      simp only [List.length_nil]
      omega
    have h := parseIPv6Loop_fuel (8 + k) s [] ell hb
    have e1 : 8 + k + 2 = 9 + (k + 1) := by omega
    have e2 : 8 + k + 1 = 9 + k := by omega
    rw [e1, e2] at h
    rw [h, ih]

/-! ## C1: first match in listing order -/

/-- C1. For every address `ip` looked up for a query (the literal, or the first
resolved address) and every readable cache directory with listing `ents`:
if the records of the listing, in listing order, are `pre ++ r :: post` where
no record of `pre` has a well-formed prefix containing `ip` and `r` has one
(among its IPv4 or its IPv6 prefixes), then `lookupIP` succeeds with
asn `"AS"` followed by the decimal number of `r` and the description of `r`,
whatever `post` holds (so a more specific prefix in a later record is not
preferred); and if no record has such a prefix, `lookupIP` fails with the
not-found error. -/
theorem lookupIP_first_match (env : Env) (dir : String) (w : World) (q : String) (ip : IP)
    (ipStr : String) (ents : List DirEntry)
    (hdir : ReadDir w dir = Except.ok ents)
    (hq : (ParseIP q = some ip ∧ ipStr = q) ∨
      (ParseIP q = none ∧ ipStr = IPString ip ∧
        ∃ rest, env.LookupIP q = Except.ok (ip :: rest))) :
    (∀ pre r post, records env dir w ents = pre ++ r :: post →
        (∀ x ∈ pre, owns ip x = false) → owns ip r = true →
        (lookupIP env dir w q).1 = Except.ok {
          Query := ipStr, IP := ipStr, ASN := "AS" ++ toString r.ASN,
          Description := r.Description, Prefixes := [] }) ∧
    ((∀ r ∈ records env dir w ents, owns ip r = false) →
        (lookupIP env dir w q).1 = Except.error "IP not found in local DB") := by
  rw [lookupIP_eq_scan env dir w q ip ipStr hq]
  simp only [scanCache, hdir, dirLoop_eq_find]
  constructor
  · intro pre r post hsplit hpre hr
    rw [hsplit, find_first (owns ip) pre r post hpre hr]
  · intro hnone
    have h : (records env dir w ents).find? (owns ip) = none := by
      rw [List.find?_eq_none]
      intro x hx
      simp [hnone x hx]
    rw [h]

/-- Witness of C1 (the round trip of the specification): in a cache whose one
record has the prefixes `["1.2.3.0/24"]`, the address `1.2.3.42` resolves to
that record and `1.2.4.1` is not found. -/
theorem lookupIP_first_match_witness :
    ReadDir wNet cacheDir = Except.ok [{ Name := "64500", IsDir := true }] ∧
    records envOK cacheDir wNet [{ Name := "64500", IsDir := true }] = [recNet] ∧
    recNet.IPv4 ++ recNet.IPv6 = ["1.2.3.0/24"] ∧
    (lookupIP envOK cacheDir wNet "1.2.3.42").1 = Except.ok {
      Query := "1.2.3.42", IP := "1.2.3.42", ASN := "AS64500",
      Description := "Example Net", Prefixes := [] } ∧
    (lookupIP envOK cacheDir wNet "1.2.4.1").1 = Except.error "IP not found in local DB" :=
  ⟨by decide, by decide, by decide,
    (lookupIP_first_match envOK cacheDir wNet "1.2.3.42"
      [0, 0, 0, 0, 0, 0, 0, 0, 0, 0, 255, 255, 1, 2, 3, 42] "1.2.3.42"
      [{ Name := "64500", IsDir := true }] (by decide) (Or.inl ⟨by decide, rfl⟩)).1
      [] recNet [] (by decide) (by decide) (by decide),
    (lookupIP_first_match envOK cacheDir wNet "1.2.4.1"
      [0, 0, 0, 0, 0, 0, 0, 0, 0, 0, 255, 255, 1, 2, 4, 1] "1.2.4.1"
      [{ Name := "64500", IsDir := true }] (by decide) (Or.inl ⟨by decide, rfl⟩)).2
      (by decide)⟩

/-- First match wins: with a record announcing `1.2.0.0/16` listed before the
record announcing `1.2.3.0/24`, the address `1.2.3.42` resolves to the former. -/
theorem lookupIP_overlap_example :
    (lookupIP envOK cacheDir wOverlap "1.2.3.42").1 = Except.ok {
      Query := "1.2.3.42", IP := "1.2.3.42", ASN := "AS64496",
      Description := "Wide Net", Prefixes := [] } := by
  decide

/-! ## C2: noise in the dataset is passed over -/

theorem covers_wellFormed (ip : IP) (s : String) (h : covers ip s = true) :
    (ParseCIDR s).isSome = true := by
  unfold covers at h
  cases hp : ParseCIDR s with
  | none => simp [hp] at h
  | some c => rfl

theorem any_covers_filter (ip : IP) (l : List String) :
    (l.filter fun s => (ParseCIDR s).isSome).any (covers ip) = l.any (covers ip) := by
  induction l with
  | nil => rfl
  | cons s rest ih =>
    cases hc : covers ip s with
    | true => simp [List.filter_cons, covers_wellFormed ip s hc, hc]
    | false =>
      cases hp : (ParseCIDR s).isSome with
      | true => simp [List.filter_cons, hp, hc, ih]
      | false => simp [List.filter_cons, hp, hc, ih]

theorem owns_stripMalformed (ip : IP) (r : ASNJSON) :
    owns ip (stripMalformed r) = owns ip r := by
  simp only [owns, stripMalformed, any_covers_filter]

theorem find_owns_strip (ip : IP) (l : List ASNJSON) :
    (l.map stripMalformed).find? (owns ip) = (l.find? (owns ip)).map stripMalformed := by
  induction l with
  | nil => rfl
  | cons r rest ih =>
    simp only [List.map_cons, List.find?_cons, owns_stripMalformed]
    cases owns ip r with
    | true => rfl
    | false => simpa using ih

theorem scanCache_strip (env : Env) (dir dir' : String) (w w' : World)
    (ents ents' : List DirEntry) (ip : IP) (ipStr : String)
    (hdir : ReadDir w dir = Except.ok ents) (hdir' : ReadDir w' dir' = Except.ok ents')
    (hclean : records env dir' w' ents' = (records env dir w ents).map stripMalformed) :
    scanCache env dir' w' ip ipStr = scanCache env dir w ip ipStr := by
  simp only [scanCache, hdir, hdir', dirLoop_eq_find, hclean, find_owns_strip]
  cases (records env dir w ents).find? (owns ip) with
  | none => rfl
  | some r => rfl

/-- C2. Take a dataset (world `w`, listing `ents`) and the same dataset with
the noise removed (world `w'`, listing `ents'`): the records that load from
`w'` are the records that load from `w` (so the entries that are no
directory, whose file is unreadable or is not JSON are gone), each without its
prefix strings that are not CIDR text. Then `lookupIP` gives the same result
on both, for every query. -/
theorem lookupIP_skips_noise (env : Env) (dir dir' : String) (w w' : World)
    (ents ents' : List DirEntry) (q : String)
    (hdir : ReadDir w dir = Except.ok ents) (hdir' : ReadDir w' dir' = Except.ok ents')
    (hclean : records env dir' w' ents' = (records env dir w ents).map stripMalformed) :
    (lookupIP env dir' w' q).1 = (lookupIP env dir w q).1 := by
  unfold lookupIP
  cases hp : ParseIP q with
  | some ip => exact scanCache_strip env dir dir' w w' ents ents' ip q hdir hdir' hclean
  | none =>
    cases hl : env.LookupIP q with
    | error e => rfl
    | ok ips =>
      cases ips with
      | nil => rfl
      | cons ip rest =>
        simp only [scanCache_record]
        exact scanCache_strip env dir dir' w w' ents ents' ip _ hdir hdir' hclean

/-- Witness of C2: `wDirty` holds a directory with a file that is not JSON, a
directory without a file, a plain file and a record with three strings that
are not CIDR text; `wClean` is that dataset without them. The address
`10.1.2.3` is found in both. -/
theorem lookupIP_skips_noise_witness :
    ReadDir wDirty cacheDir = Except.ok
      [{ Name := "100", IsDir := true }, { Name := "200", IsDir := true },
       { Name := "64511", IsDir := true }, { Name := "LICENSE", IsDir := false }] ∧
    ReadDir wClean cacheDir = Except.ok [{ Name := "64511", IsDir := true }] ∧
    (stripMalformed recNoisy).IPv4 = ["10.0.0.0/8"] ∧
    (stripMalformed recNoisy).IPv6 = ["2001:db8::/32"] ∧
    (lookupIP envOK cacheDir wClean "10.1.2.3").1 =
      (lookupIP envOK cacheDir wDirty "10.1.2.3").1 ∧
    (lookupIP envOK cacheDir wDirty "10.1.2.3").1 = Except.ok {
      Query := "10.1.2.3", IP := "10.1.2.3", ASN := "AS64511",
      Description := "Noisy Net", Prefixes := [] } :=
  ⟨by decide, by decide, by decide, by decide,
    lookupIP_skips_noise envOK cacheDir cacheDir wDirty wClean
      [{ Name := "100", IsDir := true }, { Name := "200", IsDir := true },
       { Name := "64511", IsDir := true }, { Name := "LICENSE", IsDir := false }]
      [{ Name := "64511", IsDir := true }] "10.1.2.3" (by decide) (by decide) (by decide),
    by decide⟩

/-! ## C4: prefixes of a record in local mode -/

/-- C4. In local ASN-to-prefixes mode (no `--ip2asn`, no `--use-api`), when the
cache is in place and `loadASN` returns the record `r` for the identifier, the
renderer receives asn `"AS"` followed by the number of `r`, the description of
`r`, and as prefixes the IPv4 list of `r` followed by its IPv6 list, each as
it is in the record; their number is the sum of the two lengths. -/
theorem main_local_prefixes (env : Env) (flags : Flags) (w w1 : World) (home : String)
    (r : ASNJSON)
    (hhome : env.home = Except.ok home)
    (hhelp : flags.help = false) (hip : flags.ip2asnFlag = "")
    (hasn : flags.asn2ipsFlag ≠ "") (hapi : flags.useAPI = false)
    (hens : ensureASNData env (Join [home, ".cache", "asn_scanner_db"]) w = (none, w1))
    (hload : loadASN env (Join [home, ".cache", "asn_scanner_db"]) w1 flags.asn2ipsFlag
      = Except.ok r) :
    (main env flags w).1 = Outcome.render (some {
        Query := flags.asn2ipsFlag, ASN := "AS" ++ toString r.ASN,
        Description := r.Description, Prefixes := r.IPv4 ++ r.IPv6, IP := "" }) true ∧
    (r.IPv4 ++ r.IPv6).length = r.IPv4.length + r.IPv6.length := by
  refine ⟨?_, List.length_append _ _⟩
  simp [main, hhome, hhelp, hip, hasn, hapi, hens, hload, sprintfAS]

/-- Witness of C4: the record with `ipv4 = ["10.0.0.0/8"]` and
`ipv6 = ["2001:db8::/32"]` gives the prefixes `["10.0.0.0/8", "2001:db8::/32"]`. -/
theorem main_local_prefixes_witness :
    recBoth.IPv4 = ["10.0.0.0/8"] ∧ recBoth.IPv6 = ["2001:db8::/32"] ∧
    (main envOK { ip2asnFlag := "", asn2ipsFlag := "64499", formatFlag := "text",
                  outFile := "", useAPI := false, help := false } wBoth).1 =
      Outcome.render (some {
        Query := "64499", ASN := "AS64499", Description := "Both Families",
        Prefixes := ["10.0.0.0/8", "2001:db8::/32"], IP := "" }) true :=
  ⟨rfl, rfl,
    (main_local_prefixes envOK
      { ip2asnFlag := "", asn2ipsFlag := "64499", formatFlag := "text",
        outFile := "", useAPI := false, help := false }
      wBoth wBoth "/home/u" recBoth rfl rfl rfl (by decide) rfl (by decide) (by decide)).1⟩

/-! ## C5: the query field -/

/-- For a query that is an IP literal, a successful `lookupIP` reports the
query string as typed, both as `Query` and as `IP`. -/
theorem lookupIP_literal_query (env : Env) (dir : String) (w : World) (q : String) (ip : IP)
    (info : ASNInfo) (hq : ParseIP q = some ip)
    (hok : (lookupIP env dir w q).1 = Except.ok info) :
    info.Query = q ∧ info.IP = q := by
  simp only [lookupIP, hq, scanCache] at hok
  cases hrd : ReadDir w dir with
  | error e => simp [hrd] at hok
  | ok ents =>
    simp only [hrd, dirLoop_eq_find] at hok
    cases hf : (records env dir w ents).find? (owns ip) with
    | none => simp [hf] at hok
    | some r =>
      simp only [hf, Except.ok.injEq] at hok
      subst hok
      exact ⟨rfl, rfl⟩

/-- C5, the code at a domain query. The cache holds the record of AS15169 with
`8.8.8.0/24` and `dns.google` resolves to `8.8.8.8`: `lookupIP` reports
`Query = "8.8.8.8"`, not the query `dns.google`, while `ip2asnAPI` reports
`Query = "dns.google"` for the same query. -/
theorem lookupIP_domain_query_field :
    ParseIP "dns.google" = none ∧
    (lookupIP envOK cacheDir wGoogle "dns.google").1 = Except.ok {
      Query := "8.8.8.8", IP := "8.8.8.8", ASN := "AS15169",
      Description := "GOOGLE", Prefixes := [] } ∧
    (ip2asnAPI envOK wGoogle "dns.google").1 = Except.ok {
      Query := "dns.google", IP := "8.8.8.8", ASN := "AS15169",
      Description := "GOOGLE", Prefixes := [] } := by
  decide

/-- The scenario of the specification: the literal `8.8.8.8`. -/
theorem lookupIP_google_example :
    (lookupIP envOK cacheDir wGoogle "8.8.8.8").1 = Except.ok {
      Query := "8.8.8.8", IP := "8.8.8.8", ASN := "AS15169",
      Description := "GOOGLE", Prefixes := [] } := by
  decide

/-! ## C10: resolution of the query -/

theorem readDirError_ne_cannotResolve (e : String) :
    "failed to read asn-ip folder: " ++ e ≠ "cannot resolve domain" := by
  intro h
  have h2 := congrArg (fun s => s.data.head?) h
  simp [String.data_append] at h2

theorem scanCache_ne_cannotResolve (env : Env) (dir : String) (w : World) (ip : IP)
    (ipStr : String) :
    scanCache env dir w ip ipStr ≠ Except.error "cannot resolve domain" := by
  unfold scanCache
  cases hrd : ReadDir w dir with
  | error e =>
    intro h
    simp only [Except.error.injEq] at h
    exact readDirError_ne_cannotResolve e h
  | ok ents =>
    simp only [dirLoop_eq_find]
    cases (records env dir w ents).find? (owns ip) with
    | none =>
      intro h
      simp only [Except.error.injEq] at h
      exact absurd h (by decide)
    | some r => simp

theorem dirLoop_resolver (env : Env) (f : String → Except String (List IP)) (dir : String)
    (w : World) (ip : IP) (ipStr : String) (ents : List DirEntry) :
    dirLoop { env with LookupIP := f } dir w ip ipStr ents = dirLoop env dir w ip ipStr ents := by
  induction ents with
  | nil => rfl
  | cons d rest ih =>
    have hl : loadASN { env with LookupIP := f } dir w d.Name = loadASN env dir w d.Name := rfl
    simp only [dirLoop, hl, ih]

/-- C10. (1) `lookupIP` fails with `cannot resolve domain` exactly when the query
is no IP literal and the resolver returns an error or no address; that error is
not the not-found error. (2) When the query is an IP literal, the resolver is
not called (nothing is added to the log) and the result is the same with any
other resolver. (3) When the query is no literal and the resolver returns
addresses, the first one is looked up, under its textual form. -/
theorem lookupIP_resolution (env : Env) (dir : String) (w : World) (q : String) :
    ((lookupIP env dir w q).1 = Except.error "cannot resolve domain" ↔
      ParseIP q = none ∧
        ((∃ e, env.LookupIP q = Except.error e) ∨ env.LookupIP q = Except.ok [])) ∧
    ((lookupIP env dir w q).1 = Except.error "cannot resolve domain" →
      (lookupIP env dir w q).1 ≠ Except.error "IP not found in local DB") ∧
    (∀ ip, ParseIP q = some ip →
      (lookupIP env dir w q).2 = w ∧
      ∀ f, lookupIP { env with LookupIP := f } dir w q = lookupIP env dir w q) ∧
    (∀ ip rest, ParseIP q = none → env.LookupIP q = Except.ok (ip :: rest) →
      lookupIP env dir w q =
        (scanCache env dir w ip (IPString ip), record w (Event.lookupIP q))) := by
  refine ⟨?_, ?_, ?_, ?_⟩
  · unfold lookupIP
    cases hp : ParseIP q with
    | some ip => simpa using scanCache_ne_cannotResolve env dir w ip q
    | none =>
      cases hl : env.LookupIP q with
      | error e => simp
      | ok ips =>
        cases ips with
        | nil => simp
        | cons ip rest => simpa using scanCache_ne_cannotResolve env dir _ ip _
  · intro h
    rw [h]
    decide
  · intro ip hp
    refine ⟨by simp [lookupIP, hp], fun f => ?_⟩
    simp only [lookupIP, hp, scanCache]
    cases ReadDir w dir with
    | error e => rfl
    | ok ents => simp only [dirLoop_resolver]
  · intro ip rest hp hl
    simp only [lookupIP, hp, hl, scanCache_record]

/-- Witness of C10: `nx.example` is no literal and does not resolve, so the
lookup fails with `cannot resolve domain`; for the literal `8.8.8.8` the log
stays as it was; `dns.google` is looked up as `8.8.8.8`. -/
theorem lookupIP_resolution_witness :
    (lookupIP envOK cacheDir wGoogle "nx.example").1 = Except.error "cannot resolve domain" ∧
    (lookupIP envOK cacheDir wGoogle "8.8.8.8").2 = wGoogle ∧
    lookupIP envOK cacheDir wGoogle "dns.google" =
      (scanCache envOK cacheDir wGoogle [8, 8, 8, 8] "8.8.8.8",
        record wGoogle (Event.lookupIP "dns.google")) :=
  ⟨(lookupIP_resolution envOK cacheDir wGoogle "nx.example").1.2
      ⟨by decide, Or.inl ⟨"no such host", by decide⟩⟩,
    ((lookupIP_resolution envOK cacheDir wGoogle "8.8.8.8").2.2.1
      [0, 0, 0, 0, 0, 0, 0, 0, 0, 0, 255, 255, 8, 8, 8, 8] (by decide)).1,
    (lookupIP_resolution envOK cacheDir wGoogle "dns.google").2.2.2
      [8, 8, 8, 8] [] (by decide) (by decide)⟩

/-! ## C3: spellings of an ASN -/

theorem toUpper_digit (c : Char) (h : c.isDigit = true) : c.toUpper = c := by
  have h1 : c.toNat ≤ 57 := by
    simp [Char.isDigit] at h
    exact h.2
  unfold Char.toUpper
  simp only []
  rw [if_neg]
  omega

theorem digit_ne_A (c : Char) (h : c.isDigit = true) : c ≠ 'A' := by
  intro hc
  subst hc
  revert h
  decide

theorem digit_not_space (c : Char) (h : c.isDigit = true) :
    [' ', '\t', '\n', '\r', '\x0b', '\x0c'].contains c = false := by
  have h1 : 48 ≤ c.toNat := by
    simp [Char.isDigit] at h
    exact h.1
  simp only [List.contains, List.elem_eq_mem, decide_eq_false_iff_not, List.mem_cons,
    List.mem_singleton, List.not_mem_nil, or_false]
  intro hc
  rcases hc with rfl | rfl | rfl | rfl | rfl | rfl <;> revert h1 <;> decide

theorem ToUpper_append (a b : String) : ToUpper (a ++ b) = ToUpper a ++ ToUpper b := by
  apply String.ext
  simp [ToUpper, String.data_append]

theorem ToUpper_number (n : String) (hn : isNumber n) : ToUpper n = n := by
  apply String.ext
  show n.data.map Char.toUpper = n.data
  conv_rhs => rw [← List.map_id n.data]
  exact List.map_congr_left fun c hc => toUpper_digit c (hn.2 c hc)

theorem number_data (n : String) (hn : isNumber n) :
    ∃ c cs, n.data = c :: cs ∧ c.isDigit = true := by
  cases hd : n.data with
  | nil =>
    exact absurd (String.ext (by simpa using hd)) hn.1
  | cons c cs => exact ⟨c, cs, rfl, hn.2 c (by simp [hd])⟩

theorem number_data_last (n : String) (hn : isNumber n) :
    ∃ init z, n.data = init ++ [z] ∧ z.isDigit = true := by
  obtain ⟨c, cs, hd, _⟩ := number_data n hn
  have hne : n.data ≠ [] := by simp [hd]
  refine ⟨n.data.dropLast, n.data.getLast hne, (List.dropLast_append_getLast hne).symm, ?_⟩
  exact hn.2 _ (List.getLast_mem hne)

theorem HasPrefix_number (n : String) (hn : isNumber n) : HasPrefix n "AS" = false := by
  obtain ⟨c, cs, hd, hc⟩ := number_data n hn
  have hne : ('A' == c) = false := by
    simp only [beq_eq_false_iff_ne, ne_eq]
    exact fun h => digit_ne_A c hc h.symm
  show ['A', 'S'].isPrefixOf n.data = false
  rw [hd]
  simp [List.isPrefixOf, hne]

theorem HasPrefix_AS (n : String) : HasPrefix ("AS" ++ n) "AS" = true := by
  show ['A', 'S'].isPrefixOf ("AS" ++ n).data = true
  rw [String.data_append]
  show ['A', 'S'].isPrefixOf ('A' :: 'S' :: n.data) = true
  simp [List.isPrefixOf]

theorem TrimPrefix_AS (n : String) : TrimPrefix ("AS" ++ n) "AS" = n := by
  unfold TrimPrefix
  rw [HasPrefix_AS, if_pos rfl]
  apply String.ext
  show List.drop 2 ("AS" ++ n).data = n.data
  rw [String.data_append]
  rfl

theorem TrimPrefix_number (n : String) (hn : isNumber n) : TrimPrefix n "AS" = n := by
  unfold TrimPrefix
  rw [HasPrefix_number n hn]
  rfl

/-- Every spelling is a prefix `""`, `AS`, `as`, `As` or `aS` before the number. -/
theorem spelling_cases (n id : String) (hid : id ∈ spellings n) :
    ∃ pre, id = pre ++ n ∧ (pre = "" ∨ pre = "AS" ∨ pre = "as" ∨ pre = "As" ∨ pre = "aS") := by
  simp only [spellings, List.mem_cons, List.mem_singleton, List.not_mem_nil, or_false] at hid
  rcases hid with h | h | h | h | h
  · exact ⟨"", by rw [h]; apply String.ext; simp [String.data_append], Or.inl rfl⟩
  · exact ⟨"AS", h, Or.inr (Or.inl rfl)⟩
  · exact ⟨"as", h, Or.inr (Or.inr (Or.inl rfl))⟩
  · exact ⟨"As", h, Or.inr (Or.inr (Or.inr (Or.inl rfl)))⟩
  · exact ⟨"aS", h, Or.inr (Or.inr (Or.inr (Or.inr rfl)))⟩

theorem empty_append (n : String) : "" ++ n = n := by
  apply String.ext
  simp [String.data_append]

/-- In upper case a spelling is the number, or `AS` before the number. -/
theorem ToUpper_spelling (n id : String) (hn : isNumber n) (hid : id ∈ spellings n) :
    ToUpper id = n ∨ ToUpper id = "AS" ++ n := by
  obtain ⟨pre, rfl, hpre⟩ := spelling_cases n id hid
  rw [ToUpper_append, ToUpper_number n hn]
  rcases hpre with rfl | rfl | rfl | rfl | rfl
  · exact Or.inl (empty_append n)
  · exact Or.inr rfl
  · exact Or.inr rfl
  · exact Or.inr rfl
  · exact Or.inr rfl

/-- All spellings have the same `asnNum`, the number. -/
theorem asnNum_spelling (n id : String) (hn : isNumber n) (hid : id ∈ spellings n) :
    asnNum id = n := by
  unfold asnNum
  rcases ToUpper_spelling n id hn hid with h | h
  · rw [h, TrimPrefix_number n hn]
  · rw [h, TrimPrefix_AS]

theorem Trim_eq_self (s : String) (cutset : List Char) (a z : Char) (l l' : List Char)
    (h1 : s.data = a :: l) (h2 : s.data = l' ++ [z])
    (ha : cutset.contains a = false) (hz : cutset.contains z = false) :
    Trim s cutset = s := by
  apply String.ext
  show ((s.data.dropWhile fun c => cutset.contains c).reverse.dropWhile
    fun c => cutset.contains c).reverse = s.data
  have e1 : (s.data.dropWhile fun c => cutset.contains c) = s.data := by
    rw [h1]
    apply List.dropWhile_cons_of_neg
    show ¬ cutset.contains a = true
    rw [ha]
    decide
  rw [e1]
  have e2 : s.data.reverse = z :: l'.reverse := by
    rw [h2]
    simp
  rw [e2]
  have e3 : ((z :: l'.reverse).dropWhile fun c => cutset.contains c) = z :: l'.reverse := by
    apply List.dropWhile_cons_of_neg
    show ¬ cutset.contains z = true
    rw [hz]
    decide
  rw [e3, ← e2, List.reverse_reverse]

theorem TrimSpace_spelling (n id : String) (hn : isNumber n) (hid : id ∈ spellings n) :
    TrimSpace id = id := by
  obtain ⟨pre, rfl, hpre⟩ := spelling_cases n id hid
  obtain ⟨c, cs, hd, hc⟩ := number_data n hn
  obtain ⟨init, z, hl, hz⟩ := number_data_last n hn
  have hlast : (pre ++ n).data = (pre.data ++ init) ++ [z] := by
    rw [String.data_append, hl, List.append_assoc]
  unfold TrimSpace
  rcases hpre with rfl | rfl | rfl | rfl | rfl
  · refine Trim_eq_self _ _ c z cs _ ?_ hlast (digit_not_space c hc) (digit_not_space z hz)
    rw [String.data_append, hd]
    rfl
  · exact Trim_eq_self _ _ 'A' z ('S' :: n.data) _ (by rw [String.data_append]; rfl) hlast
      (by decide) (digit_not_space z hz)
  · exact Trim_eq_self _ _ 'a' z ('s' :: n.data) _ (by rw [String.data_append]; rfl) hlast
      (by decide) (digit_not_space z hz)
  · exact Trim_eq_self _ _ 'A' z ('s' :: n.data) _ (by rw [String.data_append]; rfl) hlast
      (by decide) (digit_not_space z hz)
  · exact Trim_eq_self _ _ 'a' z ('S' :: n.data) _ (by rw [String.data_append]; rfl) hlast
      (by decide) (digit_not_space z hz)

/-- The identifier that `asn2ipsAPI` sends is `AS` before the number, for every spelling. -/
theorem asn2ipsAPI_spelling (env : Env) (w : World) (n id : String) (hn : isNumber n)
    (hid : id ∈ spellings n) :
    asn2ipsAPI env w id = asn2ipsAPI env w n := by
  have key : ∀ x, x ∈ spellings n →
      (if ¬ HasPrefix (ToUpper (TrimSpace x)) "AS" = true then "AS" ++ ToUpper (TrimSpace x)
        else ToUpper (TrimSpace x)) = "AS" ++ n := by
    intro x hx
    rw [TrimSpace_spelling n x hn hx]
    rcases ToUpper_spelling n x hn hx with h | h
    · rw [h, HasPrefix_number n hn]
      simp
    · rw [h, HasPrefix_AS]
      simp
  have hn' : n ∈ spellings n := by simp [spellings]
  unfold asn2ipsAPI
  simp only [key id hid, key n hn']

theorem loadASN_spelling_cases (env : Env) (dir : String) (w : World) (n id : String)
    (hn : isNumber n) (hid : id ∈ spellings n) :
    loadASN env dir w id = loadASN env dir w n ∨
      (loadASN env dir w id = Except.error ("ASN file not found for " ++ id) ∧
        loadASN env dir w n = Except.error ("ASN file not found for " ++ n)) := by
  have hn' : n ∈ spellings n := by simp [spellings]
  unfold loadASN jsonFile
  rw [asnNum_spelling n id hn hid, asnNum_spelling n n hn hn']
  cases ReadFile w (Join [dir, n, "aggregated.json"]) with
  | error e => exact Or.inr ⟨rfl, rfl⟩
  | ok data => exact Or.inl rfl

theorem spelling_ne_empty (n id : String) (hn : isNumber n) (hid : id ∈ spellings n) :
    id ≠ "" := by
  obtain ⟨pre, rfl, _⟩ := spelling_cases n id hid
  obtain ⟨c, cs, hd, _⟩ := number_data n hn
  intro h
  have h2 := congrArg String.data h
  rw [String.data_append, hd] at h2
  simp at h2

theorem main_asn2ips_spelling (env : Env) (w : World) (n id : String) (hn : isNumber n)
    (hid : id ∈ spellings n) (flags : Flags) (hhelp : flags.help = false)
    (hip : flags.ip2asnFlag = "") :
    answer (main env { flags with asn2ipsFlag := id } w).1 =
      answer (main env { flags with asn2ipsFlag := n } w).1 := by
  have hn' : n ∈ spellings n := by simp [spellings]
  have hid0 := spelling_ne_empty n id hn hid
  have hn0 := spelling_ne_empty n n hn hn'
  unfold main
  cases env.home with
  | error e => rfl
  | ok home =>
    simp only [hhelp, hip, hid0, hn0, Bool.false_eq_true, and_false, or_self, if_false,
      ne_eq, not_true_eq_false, not_false_eq_true, if_true]
    cases hens : ensureASNData env (Join [home, ".cache", "asn_scanner_db"]) w with
    | mk o w1 =>
      cases o with
      | some e => rfl
      | none =>
        simp only []
        cases flags.useAPI with
        | true =>
          simp only [if_true, asn2ipsAPI_spelling env w1 n id hn hid]
        | false =>
          simp only [Bool.false_eq_true, if_false]
          rcases loadASN_spelling_cases env (Join [home, ".cache", "asn_scanner_db"]) w1 n id
            hn hid with h | ⟨h1, h2⟩
          · rw [h]
            cases loadASN env (Join [home, ".cache", "asn_scanner_db"]) w1 n with
            | error e => rfl
            | ok r => rfl
          · rw [h1, h2]
            rfl

/-- C3. For a number string `n` and every spelling `id` of it (`n` itself, or
`n` after `AS`, `as`, `As` or `aS`): `loadASN` reads the record at
`Join(asnDataDir, n, "aggregated.json")`; it returns what it returns for `n`,
the same record or the same decoding error, except that when the file cannot be
read the message quotes the identifier as typed; and the ASN-to-prefixes run
of `main` answers with the same asn, description and prefixes, or fails for
both. -/
theorem loadASN_spellings (env : Env) (dir : String) (w : World) (n id : String)
    (hn : isNumber n) (hid : id ∈ spellings n) :
    jsonFile dir id = Join [dir, n, "aggregated.json"] ∧
    (loadASN env dir w id = loadASN env dir w n ∨
      (loadASN env dir w id = Except.error ("ASN file not found for " ++ id) ∧
        loadASN env dir w n = Except.error ("ASN file not found for " ++ n))) ∧
    (loadASN env dir w id).toOption = (loadASN env dir w n).toOption ∧
    (∀ flags : Flags, flags.help = false → flags.ip2asnFlag = "" →
      answer (main env { flags with asn2ipsFlag := id } w).1 =
        answer (main env { flags with asn2ipsFlag := n } w).1) := by
  refine ⟨?_, loadASN_spelling_cases env dir w n id hn hid, ?_, ?_⟩
  · unfold jsonFile
    rw [asnNum_spelling n id hn hid]
  · rcases loadASN_spelling_cases env dir w n id hn hid with h | ⟨h1, h2⟩
    · rw [h]
    · rw [h1, h2]
      rfl
  · intro flags hhelp hip
    exact main_asn2ips_spelling env w n id hn hid flags hhelp hip

/-- Witness of C3: `13335`, `AS13335` and `as13335` address the same file, and
in a cache that holds the record of AS15169 the spelling `as15169` loads it. -/
theorem loadASN_spellings_witness :
    isNumber "13335" ∧ isNumber "15169" ∧
    jsonFile cacheDir "13335" = "/home/u/.cache/asn_scanner_db/13335/aggregated.json" ∧
    jsonFile cacheDir "AS13335" = "/home/u/.cache/asn_scanner_db/13335/aggregated.json" ∧
    jsonFile cacheDir "as13335" = "/home/u/.cache/asn_scanner_db/13335/aggregated.json" ∧
    loadASN envOK cacheDir wGoogle "15169" = Except.ok recGoogle ∧
    (loadASN envOK cacheDir wGoogle "as15169").toOption =
      (loadASN envOK cacheDir wGoogle "15169").toOption :=
  ⟨⟨by decide, by decide⟩, ⟨by decide, by decide⟩, by decide,
    (loadASN_spellings envOK cacheDir wGoogle "13335" "AS13335" ⟨by decide, by decide⟩
      (by decide)).1.trans (by decide),
    (loadASN_spellings envOK cacheDir wGoogle "13335" "as13335" ⟨by decide, by decide⟩
      (by decide)).1.trans (by decide),
    by decide,
    (loadASN_spellings envOK cacheDir wGoogle "15169" "as15169" ⟨by decide, by decide⟩
      (by decide)).2.2.1⟩

/-! ## The log during `ensureASNData` -/

theorem MkdirAll_log (env : Env) (w w1 : World) (name : String)
    (h : MkdirAll env w name = Except.ok w1) : w1.log = w.log := by
  unfold MkdirAll at h
  cases h1 : env.mkdirAllErr name with
  | some e => simp [h1] at h
  | none =>
    cases h2 : mkdirAllP w.fs (resolve w.cwd name) with
    | error e => simp [h1, h2] at h
    | ok fs =>
      simp only [h1, h2, Except.ok.injEq] at h
      rw [← h]

theorem Create_log (env : Env) (w w1 : World) (name : String)
    (h : Create env w name = Except.ok w1) : w1.log = w.log := by
  unfold Create at h
  cases h1 : env.createErr name with
  | some e => simp [h1] at h
  | none =>
    cases h2 : createP w.fs (resolve w.cwd name) with
    | error e => simp [h1, h2] at h
    | ok fs =>
      simp only [h1, h2, Except.ok.injEq] at h
      rw [← h]

theorem Rename_log (env : Env) (w w1 : World) (a b : String)
    (h : Rename env w a b = Except.ok w1) : w1.log = w.log := by
  unfold Rename at h
  cases h1 : env.renameErr a b with
  | some e => simp [h1] at h
  | none =>
    cases h2 : renameP w.fs (resolve w.cwd a) (resolve w.cwd b) with
    | error e => simp [h1, h2] at h
    | ok fs =>
      simp only [h1, h2, Except.ok.injEq] at h
      rw [← h]

theorem Write_log (w : World) (name data : String) : (Write w name data).log = w.log := rfl

theorem downloadLoop_log (env : Env) (chunks : List String) (k : Nat) (w : World) :
    (downloadLoop env chunks k w).2.log = w.log := by
  induction chunks generalizing k w with
  | nil => rfl
  | cons c rest ih =>
    unfold downloadLoop
    by_cases hc : c.data.length > 0
    · simp only [hc, if_true]
      cases env.writeErr k with
      | some e => rfl
      | none =>
        simp only []
        rw [ih, Write_log]
    · simp only [hc, if_false]
      exact ih k w

theorem extractLoop_log (env : Env) (files : List ZipEntry) (w : World) :
    (extractLoop env files w).2.log = w.log := by
  induction files generalizing w with
  | nil => rfl
  | cons f rest ih =>
    unfold extractLoop
    simp only []
    cases f.IsDir with
    | true =>
      simp only [if_true]
      cases h : MkdirAll env w (Join [".", f.Name]) with
      | error e => exact ih w
      | ok w1 =>
        simp only []
        rw [ih, MkdirAll_log env w w1 _ h]
    | false =>
      simp only [Bool.false_eq_true, if_false]
      cases h : MkdirAll env w (Dir (Join [".", f.Name])) with
      | error e => rfl
      | ok w1 =>
        have l1 := MkdirAll_log env w w1 _ h
        simp only []
        cases f.openErr with
        | some e => exact l1
        | none =>
          simp only []
          cases h2 : Create env w1 (Join [".", f.Name]) with
          | error e => exact l1
          | ok w2 =>
            have l2 := Create_log env w1 w2 _ h2
            simp only []
            cases f.copyErr with
            | some e =>
              simp only []
              rw [Write_log, l2, l1]
            | none =>
              simp only []
              rw [ih, Write_log, l2, l1]

theorem relocate_log (env : Env) (dir : String) (w : World) :
    (relocate env dir w).2.log = w.log := by
  unfold relocate
  simp only []
  cases Stat w (Join [findMasterDir (match ReadDir w "." with
      | Except.ok fs => fs
      | Except.error _ => []), "as"]) with
  | error e => rfl
  | ok nd =>
    simp only []
    have hw1 : (match Stat w dir with
        | Except.ok _ => RemoveAll w dir
        | Except.error _ => w).log = w.log := by
      cases Stat w dir with
      | error e => rfl
      | ok n2 => rfl
    cases h : Rename env (match Stat w dir with
        | Except.ok _ => RemoveAll w dir
        | Except.error _ => w) (Join [findMasterDir (match ReadDir w "." with
      | Except.ok fs => fs
      | Except.error _ => []), "as"]) dir with
    | error e => exact hw1
    | ok w2 =>
      show w2.log = w.log
      rw [Rename_log env _ w2 _ _ h, hw1]

theorem downloads_append (l : List Event) (e : Event) :
    downloads (l ++ [e]) ≤ downloads l + 1 := by
  unfold downloads
  rw [List.countP_append]
  have : List.countP (fun e => decide (e = Event.httpGet zipURL)) [e] ≤ 1 := by
    have := List.countP_le_length (fun e => decide (e = Event.httpGet zipURL)) (l := [e])
    simpa using this
  omega

theorem downloads_zipOpen (l : List Event) (name : String) :
    downloads (l ++ [Event.zipOpen name]) = downloads l := by
  unfold downloads
  rw [List.countP_append]
  simp [List.countP_cons]

/-- One call of `ensureASNData` adds nothing to the log, or one `http.Get`, or
one `http.Get` and the opening of the archive. -/
theorem ensureASNData_log (env : Env) (dir : String) (w : World) :
    (ensureASNData env dir w).2.log = w.log ∨
    (ensureASNData env dir w).2.log = w.log ++ [Event.httpGet zipURL] ∨
    (ensureASNData env dir w).2.log =
      w.log ++ [Event.httpGet zipURL] ++ [Event.zipOpen zipPath] := by
  unfold ensureASNData
  cases Stat w dir with
  | ok nd => exact Or.inl rfl
  | error se =>
    cases se with
    | notDir => exact Or.inl rfl
    | notExist =>
      simp only []
      cases h1 : MkdirAll env w dir with
      | error e => exact Or.inl rfl
      | ok w1 =>
        have l1 := MkdirAll_log env w w1 _ h1
        simp only []
        cases env.httpGet zipURL with
        | error e =>
          refine Or.inr (Or.inl ?_)
          show w1.log ++ _ = _
          rw [l1]
        | ok resp =>
          simp only []
          cases h3 : Create env (record w1 (Event.httpGet zipURL)) zipPath with
          | error e =>
            refine Or.inr (Or.inl ?_)
            show w1.log ++ _ = _
            rw [l1]
          | ok w3 =>
            have l3 : w3.log = w.log ++ [Event.httpGet zipURL] := by
              rw [Create_log env _ w3 _ h3]
              show w1.log ++ _ = _
              rw [l1]
            simp only []
            have l4 := downloadLoop_log env resp.chunks 0 w3
            cases h4 : downloadLoop env resp.chunks 0 w3 with
            | mk o w4 =>
              rw [h4] at l4
              simp only [] at l4
              cases o with
              | some e =>
                refine Or.inr (Or.inl ?_)
                show w4.log = _
                rw [l4, l3]
              | none =>
                simp only []
                cases resp.readErr with
                | some e =>
                  refine Or.inr (Or.inl ?_)
                  show w4.log = _
                  rw [l4, l3]
                | none =>
                  simp only []
                  have l5 : (record w4 (Event.zipOpen zipPath)).log =
                      w.log ++ [Event.httpGet zipURL] ++ [Event.zipOpen zipPath] := by
                    show w4.log ++ _ = _
                    rw [l4, l3]
                  cases ReadFile (record w4 (Event.zipOpen zipPath)) zipPath with
                  | error e => exact Or.inr (Or.inr l5)
                  | ok bytes =>
                    simp only []
                    cases env.zipFiles bytes with
                    | error e => exact Or.inr (Or.inr l5)
                    | ok files =>
                      simp only []
                      have l6 := extractLoop_log env files (record w4 (Event.zipOpen zipPath))
                      cases h6 : extractLoop env files (record w4 (Event.zipOpen zipPath)) with
                      | mk o6 w6 =>
                        rw [h6] at l6
                        simp only [] at l6
                        cases o6 with
                        | some e =>
                          refine Or.inr (Or.inr ?_)
                          simp only []
                          rw [l6, l5]
                        | none =>
                          refine Or.inr (Or.inr ?_)
                          simp only []
                          rw [relocate_log, l6, l5]

/-- One call of `ensureASNData` downloads at most once. -/
theorem ensureASNData_downloads (env : Env) (dir : String) (w : World) :
    downloads (ensureASNData env dir w).2.log ≤ downloads w.log + 1 := by
  rcases ensureASNData_log env dir w with h | h | h
  · rw [h]
    omega
  · rw [h]
    exact downloads_append _ _
  · rw [h, downloads_zipOpen]
    exact downloads_append _ _

/-! ## C6, C7, C8: acquisition of the dataset -/

/-- A successful first run: the cache is populated from the archive, the
archive file and the unpacked directory are removed. -/
theorem ensureASNData_success_example :
    ensureASNData envOK cacheDir wBare = (none, wPopulated) ∧
    Stat wPopulated zipPath = Except.error StatErr.notExist ∧
    Stat wPopulated "asn-ip-master" = Except.error StatErr.notExist ∧
    (lookupIP envOK cacheDir wPopulated "8.8.8.8").1 = Except.ok {
      Query := "8.8.8.8", IP := "8.8.8.8", ASN := "AS15169",
      Description := "GOOGLE", Prefixes := [] } := by
  decide

/-- C6, the code after a failed first run. With no cache directory at the
start, a run whose download fails returns the error but leaves the created,
empty cache directory; so does a run whose archive has no `as` directory. The
next run finds the directory, returns success at once and changes nothing: the
cache it reports is empty, and every lookup in it ends with not-found. -/
theorem ensureASNData_empty_cache_after_failure :
    Stat wBare cacheDir = Except.error StatErr.notExist ∧
    ensureASNData envNoDownload cacheDir wBare =
      (some "dial tcp: connection refused", wAfterFailedDownload) ∧
    ensureASNData envOK cacheDir wAfterFailedDownload = (none, wAfterFailedDownload) ∧
    ReadDir wAfterFailedDownload cacheDir = Except.ok [] ∧
    (lookupIP envOK cacheDir wAfterFailedDownload "8.8.8.8").1 =
      Except.error "IP not found in local DB" ∧
    ensureASNData envNoRecords cacheDir wBare = (some "failed to move ASN data", wAfterNoRecords) ∧
    ensureASNData envOK cacheDir wAfterNoRecords = (none, wAfterNoRecords) ∧
    ReadDir wAfterNoRecords cacheDir = Except.ok [] := by
  decide

/-- C7 as stated fails: when `os.Rename` fails (working directory and cache on
different devices), the first call has removed the cache directory again, so the
second call of two in a row is no no-op; it downloads and unpacks once more. -/
theorem ensureASNData_twice_downloads_twice :
    ensureASNData envCrossDevice cacheDir wBare =
      (some "failed to move ASN data: invalid cross-device link", wAfterFailedRename) ∧
    downloads wAfterFailedRename.log = 1 ∧
    (ensureASNData envCrossDevice cacheDir wAfterFailedRename).1 =
      some "failed to move ASN data: invalid cross-device link" ∧
    (ensureASNData envCrossDevice cacheDir wAfterFailedRename).2 ≠ wAfterFailedRename ∧
    downloads (ensureASNData envCrossDevice cacheDir wAfterFailedRename).2.log = 2 := by
  decide

/-- C7, amended. (1) In every state in which the cache directory exists, the
call returns success and the state (filesystem and log) is the one before:
nothing is downloaded or unpacked. (2) Hence, whenever the cache directory
exists after a first call, a second call in a row is such a no-op, and the two
calls together download at most once. -/
theorem ensureASNData_idempotent_on_presence (env env2 : Env) (dir : String) (w : World) :
    (∀ nd, Stat w dir = Except.ok nd → ensureASNData env dir w = (none, w)) ∧
    (∀ nd, Stat (ensureASNData env dir w).2 dir = Except.ok nd →
      ensureASNData env2 dir (ensureASNData env dir w).2 = (none, (ensureASNData env dir w).2) ∧
      downloads (ensureASNData env2 dir (ensureASNData env dir w).2).2.log ≤
        downloads w.log + 1) := by
  have present : ∀ (e : Env) (v : World) (nd : Node),
      Stat v dir = Except.ok nd → ensureASNData e dir v = (none, v) := by
    intro e v nd h
    unfold ensureASNData
    rw [h]
  refine ⟨present env w, fun nd h => ?_⟩
  rw [present env2 _ nd h]
  exact ⟨rfl, ensureASNData_downloads env dir w⟩

/-- Witness of C7, amended: with the cache in place nothing happens; starting
without a cache, the first call populates it and the second changes nothing. -/
theorem ensureASNData_idempotent_on_presence_witness :
    Stat wGoogle cacheDir = Except.ok Node.dir ∧
    ensureASNData envOK cacheDir wGoogle = (none, wGoogle) ∧
    Stat (ensureASNData envOK cacheDir wBare).2 cacheDir = Except.ok Node.dir ∧
    ensureASNData envOK cacheDir (ensureASNData envOK cacheDir wBare).2 =
      (none, (ensureASNData envOK cacheDir wBare).2) :=
  ⟨by decide,
    (ensureASNData_idempotent_on_presence envOK envOK cacheDir wGoogle).1 Node.dir (by decide),
    by decide,
    ((ensureASNData_idempotent_on_presence envOK envOK cacheDir wBare).2 Node.dir
      (by decide)).1⟩

/-- C8, the code when the move fails. The run reaches the relocation step and
`os.Rename` fails: the call returns that error while the archive file
`asn-master.zip` and the unpacked directory `asn-ip-master` are still there.
When the move succeeds, and when the `as` directory is missing, both are gone. -/
theorem ensureASNData_leftovers_after_failed_rename :
    (ensureASNData envCrossDevice cacheDir wBare).1 =
      some "failed to move ASN data: invalid cross-device link" ∧
    Stat (ensureASNData envCrossDevice cacheDir wBare).2 zipPath =
      Except.ok (Node.file "PKZIP") ∧
    Stat (ensureASNData envCrossDevice cacheDir wBare).2 "asn-ip-master" =
      Except.ok Node.dir ∧
    (ensureASNData envOK cacheDir wBare).1 = none ∧
    Stat (ensureASNData envOK cacheDir wBare).2 zipPath = Except.error StatErr.notExist ∧
    Stat (ensureASNData envOK cacheDir wBare).2 "asn-ip-master" =
      Except.error StatErr.notExist ∧
    (ensureASNData envNoRecords cacheDir wBare).1 = some "failed to move ASN data" ∧
    Stat (ensureASNData envNoRecords cacheDir wBare).2 zipPath =
      Except.error StatErr.notExist ∧
    Stat (ensureASNData envNoRecords cacheDir wBare).2 "asn-ip-master" =
      Except.error StatErr.notExist := by
  decide

/-! ## C9: remote mode -/

/-- C9, the code with `--use-api`. With `--use-api` and no cache directory,
`main` still runs `ensureASNData` before it looks at the flag. When the dataset
cannot be downloaded the command ends with the setup error although the remote
lookup answers the query; and when it can be downloaded, the dataset is
acquired (one download, the cache directory exists afterwards) although the
remote lookup never reads it. -/
theorem main_remote_runs_setup :
    flagsRemote.useAPI = true ∧
    (main envNoDownload flagsRemote wBare).1 =
      Outcome.setupError "dial tcp: connection refused" ∧
    (ip2asnAPI envNoDownload wBare "8.8.8.8").1 = Except.ok {
      Query := "8.8.8.8", IP := "8.8.8.8", ASN := "AS15169",
      Description := "GOOGLE", Prefixes := [] } ∧
    downloads wBare.log = 0 ∧
    downloads (main envOK flagsRemote wBare).2.log = 1 ∧
    Stat (main envOK flagsRemote wBare).2 cacheDir = Except.ok Node.dir := by
  decide

/-- What `main` does with `--use-api` around the setup call: if
`ensureASNData` fails the command ends with the setup error; when it succeeds,
the outcome of the command is exactly what the remote lookup returns for the
query (`ip2asnAPI` for `--ip2asn`, else `asn2ipsAPI`), and neither `lookupIP`
nor `loadASN` takes part. -/
theorem main_remote_delegates (env : Env) (flags : Flags) (w : World) (home : String)
    (hhome : env.home = Except.ok home) (hhelp : flags.help = false)
    (hapi : flags.useAPI = true)
    (hq : flags.ip2asnFlag ≠ "" ∨ flags.asn2ipsFlag ≠ "") :
    (∀ e w1, ensureASNData env (Join [home, ".cache", "asn_scanner_db"]) w = (some e, w1) →
      main env flags w = (Outcome.setupError e, w1)) ∧
    (∀ w1, ensureASNData env (Join [home, ".cache", "asn_scanner_db"]) w = (none, w1) →
      (flags.ip2asnFlag ≠ "" →
        main env flags w = deliver (ip2asnAPI env w1 flags.ip2asnFlag) false) ∧
      (flags.ip2asnFlag = "" →
        main env flags w = deliver (asn2ipsAPI env w1 flags.asn2ipsFlag) true)) := by
  have hnot : ¬ (flags.help = true ∨ flags.ip2asnFlag = "" ∧ flags.asn2ipsFlag = "") := by
    rw [hhelp]
    rintro (h | ⟨h1, h2⟩)
    · exact Bool.noConfusion h
    · rcases hq with h | h
      · exact h h1
      · exact h h2
  refine ⟨fun e w1 hens => ?_, fun w1 hens => ⟨fun hip => ?_, fun hip => ?_⟩⟩
  · unfold main
    simp only [hhome]
    rw [if_neg hnot]
    simp only [hens]
  · unfold main
    simp only [hhome]
    rw [if_neg hnot]
    simp only [hens, hip, ne_eq, not_false_eq_true, if_true, hapi]
    cases ip2asnAPI env w1 flags.ip2asnFlag with
    | mk r w2 =>
      cases r with
      | error e => rfl
      | ok info => rfl
  · have hasn : flags.asn2ipsFlag ≠ "" := by
      rcases hq with h | h
      · exact absurd hip h
      · exact h
    unfold main
    simp only [hhome]
    rw [if_neg hnot]
    simp only [hens, hip, ne_eq, not_true_eq_false, hasn, not_false_eq_true, if_true,
      if_false, hapi]
    cases asn2ipsAPI env w1 flags.asn2ipsFlag with
    | mk r w2 =>
      cases r with
      | error e => rfl
      | ok info => rfl

/-- With the cache in place, `--ip2asn 8.8.8.8 --use-api` hands the answer of
the lookup service to the renderer. -/
theorem main_remote_delegates_example :
    ensureASNData envOK (Join ["/home/u", ".cache", "asn_scanner_db"]) wGoogle = (none, wGoogle) ∧
    main envOK flagsRemote wGoogle = deliver (ip2asnAPI envOK wGoogle "8.8.8.8") false ∧
    (main envOK flagsRemote wGoogle).1 = Outcome.render (some {
      Query := "8.8.8.8", IP := "8.8.8.8", ASN := "AS15169",
      Description := "GOOGLE", Prefixes := [] }) false :=
  ⟨by decide,
    ((main_remote_delegates envOK flagsRemote wGoogle "/home/u" rfl rfl rfl
      (Or.inl (by decide))).2 wGoogle (by decide)).1 (by decide),
    by decide⟩

end AsnGo
